import Mathlib

/-!
# Verification of the `box_minter` on-chain program

A shallow embedding of `src/onchain/programs/box_minter/src/lib.rs` (a Solana
Anchor program) together with proofs about its inventory ledger, metadata
templating, delivery idempotency, the two-phase open-box protocol and its
cosigner / dude-id validation.

Conventions of the embedding:
* Machine integers (`u8`/`u16`/`u32`/`u64`/`u128`) are `Nat` with explicit
  bound checks exactly where the source performs checked arithmetic.
* Rust byte strings are modelled as Lean `String`s; `starts_with`/`ends_with`/
  `contains` become decidable list-of-char predicates.
* Solana accounts are modelled by association lists keyed by `Pubkey`.
  Program-derived addresses are modelled by dedicated `Pubkey` constructors,
  one per seed family, which makes the derivation injective by construction.
* Checks in an instruction handler that depend on accounts not otherwise
  modelled (program-id equality, CPI success of the system program, PDA bump
  validity) become `Bool` fields of an "environment" record, consulted in the
  same order and mapped to the same error as in the source.
* A handler is a function `State → … → Except Err State`; an `error` result
  models the transaction-wide rollback, so the pre-state survives unchanged
  (made explicit by `apply…` runner functions).
* The external MPL-Core asset registry is not part of `src/`; its
  transfer/burn/update semantics are modelled from the spec (§6 "External
  collaborator contract") in the definitions marked `Modelled from the spec`.
-/

namespace BoxMinter

/-- Addresses. PDA families of the program get their own constructors
(seed tags `"box"`, `"delivery"`, `"open"`, `"pdude"`, `"config"`),
so `create_program_address`/`find_program_address` derivation is injective
by construction; all other keys are `raw`. -/
inductive Pubkey where
  /-- an arbitrary non-PDA address -/
  | raw (n : Nat)
  /-- the Metaplex Core program id (`MPL_CORE_PROGRAM_ID`) -/
  | mplCore
  /-- the config PDA, seeds `["config"]` -/
  | configPda
  /-- a box asset PDA, seeds `["box", payer, mint_id, i]` -/
  | boxAssetPda (payer : Pubkey) (mintId : Nat) (i : Nat)
  /-- a delivery record PDA, seeds `["delivery", delivery_id]` -/
  | deliveryPda (deliveryId : Nat)
  /-- a pending-open record PDA, seeds `["open", box_asset]` -/
  | pendingPda (boxAsset : Pubkey)
  /-- a placeholder dude asset PDA, seeds `["pdude", pending, i]` -/
  | pendingDudePda (pending : Pubkey) (i : Nat)
  deriving DecidableEq, Repr

/-- Error codes of the program (`BoxMinterError`), extended by three
model-level codes: `AccountNotInitialized` / `AccountAlreadyInUse` for the
Anchor account-resolution failures of `Account<…>` / `init` constraints, and
`ExternalProgramFailure` for an opaque CPI failure (spec §7 taxonomy (f)). -/
inductive Err where
  | InvalidQuantity
  | SoldOut
  | MathOverflow
  | InvalidMaxSupply
  | InvalidMaxPerTx
  | InvalidPrice
  | NameTooLong
  | SymbolTooLong
  | UriTooLong
  | InvalidCoreCollection
  | SerializationFailed
  | InvalidDudeId
  | DuplicateDudeId
  | InvalidCosigner
  | InvalidFigureUriBase
  | InvalidDeliveryFee
  | InvalidDeliveryItemKind
  | InvalidRemainingAccounts
  | InvalidMplCoreProgram
  | InvalidAssetPda
  | InvalidAsset
  | InvalidAssetOwner
  | InvalidAssetCollection
  | InvalidAssetMetadata
  | MissingTransferInstruction
  | InvalidTransferInstruction
  | InvalidPendingRecord
  | InvalidDeliveryPda
  | DeliveryAlreadyExists
  | InvalidLogWrapper
  | InvalidBubblegumProgram
  | InvalidMplNoopProgram
  | InvalidCompressionProgram
  | InvalidMplCoreCpiSigner
  | InvalidReceiptsMerkleTree
  | InvalidReceiptsTreeConfig
  | InvalidReceiptUriBase
  | AccountNotInitialized
  | AccountAlreadyInUse
  | ExternalProgramFailure
  deriving DecidableEq, Repr

instance {ε α : Type} [DecidableEq ε] [DecidableEq α] :
    DecidableEq (Except ε α) := fun x y =>
  match x, y with
  | .error a, .error b =>
    if h : a = b then isTrue (h ▸ rfl)
    else isFalse (fun hc => h (Except.error.inj hc))
  | .ok a, .ok b =>
    if h : a = b then isTrue (h ▸ rfl)
    else isFalse (fun hc => h (Except.ok.inj hc))
  | .error _, .ok _ => isFalse (fun hc => Except.noConfusion hc)
  | .ok _, .error _ => isFalse (fun hc => Except.noConfusion hc)

/-- `const MAX_SAFE_MINTS_PER_TX: u8 = 15` -/
def MAX_SAFE_MINTS_PER_TX : Nat := 15

/-- `const MAX_SAFE_DELIVERY_ITEMS_PER_TX: u8 = 32` -/
def MAX_SAFE_DELIVERY_ITEMS_PER_TX : Nat := 32

/-- `const MIN_DELIVERY_LAMPORTS: u64 = 1_000_000` -/
def MIN_DELIVERY_LAMPORTS : Nat := 1000000

/-- `const MAX_DELIVERY_LAMPORTS: u64 = 3_000_000` -/
def MAX_DELIVERY_LAMPORTS : Nat := 3000000

/-- `const DUDES_PER_BOX: usize = 3` -/
def DUDES_PER_BOX : Nat := 3

/-- `const MAX_DUDE_ID: u16 = 999` -/
def MAX_DUDE_ID : Nat := 999

/-- `u32::MAX` -/
def U32_MAX : Nat := 2 ^ 32 - 1

/-- `u64::MAX` -/
def U64_MAX : Nat := 2 ^ 64 - 1

/-- `u128::MAX` -/
def U128_MAX : Nat := 2 ^ 128 - 1

/-- Rust `str::ends_with` on byte strings, as a char-list suffix test. -/
def strEndsWith (s suffx : String) : Bool := decide (suffx.data <:+ s.data)

/-- Rust `str::starts_with`, as a char-list prefix test. -/
def strStartsWith (s pre : String) : Bool := decide (pre.data <+: s.data)

/-- Rust `str::contains` for a literal pattern, as a char-list infix test. -/
def strContains (s pat : String) : Bool := decide (pat.data <:+: s.data)

/-- The per-unit asset name built inside the `mint_boxes` loop
(`lib.rs` lines 300–305): the prefix, a single separating space unless the
prefix is empty or already ends with a space, then the decimal sequence
number. -/
def mintName (namePre : String) (idx : Nat) : String :=
  (if namePre ≠ "" ∧ strEndsWith namePre " " = false then namePre ++ " "
   else namePre) ++ toString idx

/-- The per-unit asset URI built inside the `mint_boxes` loop
(`lib.rs` lines 307–315): when `uri_base` is nonempty and does not end in
`".json"`, append (a `/` unless already present, then) `"{idx}.json"`;
otherwise the buffer keeps `uri_base` verbatim. -/
def mintUri (uriBase : String) (idx : Nat) : String :=
  if uriBase ≠ "" ∧ strEndsWith uriBase ".json" = false then
    (if strEndsWith uriBase "/" = false then uriBase ++ "/" else uriBase)
      ++ toString idx ++ ".json"
  else uriBase

/-- Rust `str::replace` on char lists: replace every non-overlapping
occurrence of `pat`, left to right. Fuelled structural recursion (the fuel
is the input length, which suffices since every step consumes at least one
character when `pat` is nonempty). -/
def replaceChars (pat repl : List Char) : Nat → List Char → List Char
  | _, [] => []
  | 0, l => l
  | fuel + 1, l =>
    if pat ≠ [] ∧ decide (pat <+: l) = true then
      repl ++ replaceChars pat repl fuel (l.drop pat.length)
    else
      match l with
      | [] => []
      | c :: tl => c :: replaceChars pat repl fuel tl

/-- Rust `String::replace`. -/
def strReplace (s pat repl : String) : String :=
  ⟨replaceChars pat.data repl.data s.data.length s.data⟩

/-- The trailing-`/` normalization shared by the three URI-base derivations
(`if !out.ends_with('/') { out.push('/') }`). -/
def ensureTrailingSlash (s : String) : String :=
  if strEndsWith s "/" = false then s ++ "/" else s

/-- `derive_figures_uri_base` (`lib.rs` 1728–1749): fail on a `".json"` base,
otherwise replace the most specific `boxes` segment with `figures`, failing
when no `boxes` token occurs. -/
def deriveFiguresUriBase (boxesUriBase : String) : Except Err String :=
  if strEndsWith boxesUriBase ".json" then .error .InvalidFigureUriBase
  else if strContains boxesUriBase "/json/boxes/" then
    .ok (ensureTrailingSlash (strReplace boxesUriBase "/json/boxes/" "/json/figures/"))
  else if strContains boxesUriBase "/boxes/" then
    .ok (ensureTrailingSlash (strReplace boxesUriBase "/boxes/" "/figures/"))
  else if strContains boxesUriBase "boxes" then
    .ok (ensureTrailingSlash (strReplace boxesUriBase "boxes" "figures"))
  else .error .InvalidFigureUriBase

/-- `derive_receipts_figures_uri_base` (`lib.rs` 1762–1783). -/
def deriveReceiptsFiguresUriBase (boxesUriBase : String) : Except Err String :=
  if strEndsWith boxesUriBase ".json" then .error .InvalidReceiptUriBase
  else if strContains boxesUriBase "/json/boxes/" then
    .ok (ensureTrailingSlash (strReplace boxesUriBase "/json/boxes/" "/json/receipts/figures/"))
  else if strContains boxesUriBase "/boxes/" then
    .ok (ensureTrailingSlash (strReplace boxesUriBase "/boxes/" "/receipts/figures/"))
  else if strContains boxesUriBase "boxes" then
    .ok (ensureTrailingSlash (strReplace boxesUriBase "boxes" "receipts/figures"))
  else .error .InvalidReceiptUriBase

/-- `derive_receipts_boxes_uri_base` (`lib.rs` 1785–1806). -/
def deriveReceiptsBoxesUriBase (boxesUriBase : String) : Except Err String :=
  if strEndsWith boxesUriBase ".json" then .error .InvalidReceiptUriBase
  else if strContains boxesUriBase "/json/boxes/" then
    .ok (ensureTrailingSlash (strReplace boxesUriBase "/json/boxes/" "/json/receipts/boxes/"))
  else if strContains boxesUriBase "/boxes/" then
    .ok (ensureTrailingSlash (strReplace boxesUriBase "/boxes/" "/receipts/boxes/"))
  else if strContains boxesUriBase "boxes" then
    .ok (ensureTrailingSlash (strReplace boxesUriBase "boxes" "receipts/boxes"))
  else .error .InvalidReceiptUriBase

/-- `BoxMinterConfig` (the singleton configuration account). The Rust
`name_prefix` field is called `namePre` here (a gate constraint on names). -/
structure BoxMinterConfig where
  admin : Pubkey
  treasury : Pubkey
  coreCollection : Pubkey
  priceLamports : Nat
  maxSupply : Nat
  maxPerTx : Nat
  minted : Nat
  namePre : String
  symbol : String
  uriBase : String
  bump : Nat
  deriving DecidableEq, Repr

/-- `BoxMinterConfig::MAX_NAME_PREFIX` -/
def MAX_NAME_PREFIX : Nat := 8

/-- `BoxMinterConfig::MAX_SYMBOL` -/
def MAX_SYMBOL : Nat := 10

/-- `BoxMinterConfig::MAX_URI_BASE` -/
def MAX_URI_BASE : Nat := 96

/-- `InitializeArgs`. -/
structure InitializeArgs where
  priceLamports : Nat
  maxSupply : Nat
  maxPerTx : Nat
  namePre : String
  symbol : String
  uriBase : String
  deriving DecidableEq, Repr

/-- The accounts of `Initialize` that the handler checks: the admin/treasury
keys stored into the config, and the two facts checked about
`core_collection` (non-default key, owned by the MPL-Core program). -/
structure InitializeEnv where
  admin : Pubkey
  treasury : Pubkey
  coreCollection : Pubkey
  coreCollectionNonDefault : Bool
  coreCollectionOwnedByMplCore : Bool
  bump : Nat
  deriving DecidableEq, Repr

/-- `initialize` (`lib.rs` 74–119): validates the arguments and the
collection account, then writes the config with `minted = 0`. String lengths
are byte lengths, as in Rust `String::len`. -/
def initializeConfig (a : InitializeArgs) (e : InitializeEnv) : Except Err BoxMinterConfig :=
  if ¬ (0 < a.maxSupply) then .error .InvalidMaxSupply
  else if ¬ (0 < a.maxPerTx) then .error .InvalidMaxPerTx
  else if ¬ (a.maxPerTx ≤ MAX_SAFE_MINTS_PER_TX) then .error .InvalidMaxPerTx
  else if ¬ (0 < a.priceLamports) then .error .InvalidPrice
  else if ¬ (a.namePre.utf8ByteSize ≤ MAX_NAME_PREFIX) then .error .NameTooLong
  else if ¬ (a.symbol.utf8ByteSize ≤ MAX_SYMBOL) then .error .SymbolTooLong
  else if ¬ (a.uriBase.utf8ByteSize ≤ MAX_URI_BASE) then .error .UriTooLong
  else if ¬ e.coreCollectionNonDefault then .error .InvalidCoreCollection
  else if ¬ e.coreCollectionOwnedByMplCore then .error .InvalidCoreCollection
  else .ok
    { admin := e.admin
      treasury := e.treasury
      coreCollection := e.coreCollection
      priceLamports := a.priceLamports
      maxSupply := a.maxSupply
      maxPerTx := a.maxPerTx
      minted := 0
      namePre := a.namePre
      symbol := a.symbol
      uriBase := a.uriBase
      bump := e.bump }

/-- The account-dependent checks of a `mint_boxes` call: program-id equality,
payment CPI success, the lengths of `remaining_accounts` and `box_bumps`, and
the per-index PDA re-derivation / uninitialized-account checks and CreateV1
CPI successes of the loop body. -/
structure MintBoxesEnv where
  mplCoreProgramOk : Bool
  paymentOk : Bool
  remainingLen : Nat
  bumpsLen : Nat
  pdaOk : Nat → Bool
  createOk : Nat → Bool

/-- The body of the `mint_boxes` loop (`lib.rs` 265–354), iterating `i` over
`0..quantity`: the `u8` cast of `i`, the PDA and uninitialized-account checks,
the metadata build for sequence number `start_index + i = minted + 1 + i`, and
the CreateV1 CPI. Returns the per-unit `(name, uri)` metadata. -/
def mintLoop (cfg : BoxMinterConfig) (e : MintBoxesEnv) :
    Nat → Nat → Except Err (List (String × String))
  | _, 0 => .ok []
  | i, n + 1 =>
    if ¬ (i ≤ 255) then .error .InvalidQuantity
    else if ¬ (e.pdaOk i = true) then .error .InvalidAssetPda
    else if ¬ (e.createOk i = true) then .error .ExternalProgramFailure
    else
      match mintLoop cfg e (i + 1) n with
      | .error er => .error er
      | .ok rest =>
        .ok ((mintName cfg.namePre (cfg.minted + 1 + i),
              mintUri cfg.uriBase (cfg.minted + 1 + i)) :: rest)

/-- `mint_boxes` (`lib.rs` 127–358): program-id check, quantity band,
overflow-checked supply accounting, overflow-checked cost, payment, account
list shape, then the create loop; `minted` is advanced to `new_total` only at
the very end. On success also returns the generated per-unit metadata. -/
def mintBoxes (cfg : BoxMinterConfig) (e : MintBoxesEnv) (quantity : Nat) :
    Except Err (BoxMinterConfig × List (String × String)) :=
  if ¬ (e.mplCoreProgramOk = true) then .error .InvalidMplCoreProgram
  else if ¬ (1 ≤ quantity) then .error .InvalidQuantity
  else if ¬ (quantity ≤ min cfg.maxPerTx MAX_SAFE_MINTS_PER_TX) then .error .InvalidQuantity
  else if ¬ (cfg.minted + quantity ≤ U32_MAX) then .error .MathOverflow
  else if ¬ (cfg.minted + quantity ≤ cfg.maxSupply) then .error .SoldOut
  else if ¬ (cfg.priceLamports * quantity ≤ U128_MAX) then .error .MathOverflow
  else if ¬ (cfg.priceLamports * quantity ≤ U64_MAX) then .error .MathOverflow
  else if 0 < cfg.priceLamports * quantity ∧ ¬ (e.paymentOk = true) then
    .error .ExternalProgramFailure
  else if ¬ (e.remainingLen = quantity) then .error .InvalidRemainingAccounts
  else if ¬ (e.bumpsLen = quantity) then .error .InvalidRemainingAccounts
  else
    match mintLoop cfg e 0 quantity with
    | .error er => .error er
    | .ok created => .ok ({ cfg with minted := cfg.minted + quantity }, created)

/-- The state left by a `mint_boxes` call: the new config on success, the
unchanged config on error (the runtime rolls the transaction back). -/
def applyMint (cfg : BoxMinterConfig) (e : MintBoxesEnv) (quantity : Nat) :
    BoxMinterConfig :=
  match mintBoxes cfg e quantity with
  | .ok (cfg', _) => cfg'
  | .error _ => cfg

/-- One attempted `mint_boxes` call of a sequence. -/
structure MintCall where
  quantity : Nat
  env : MintBoxesEnv

/-- Run a sequence of `mint_boxes` calls, each attempt seeing the state left
by the previous one. -/
def runMints : BoxMinterConfig → List MintCall → BoxMinterConfig
  | cfg, [] => cfg
  | cfg, c :: cs => runMints (applyMint cfg c.env c.quantity) cs

/-- All calls of the sequence succeed (each judged against the state its
predecessors produced). -/
def mintsSucceed : BoxMinterConfig → List MintCall → Prop
  | _, [] => True
  | cfg, c :: cs =>
    (mintBoxes cfg c.env c.quantity).isOk = true ∧
      mintsSucceed (applyMint cfg c.env c.quantity) cs

/-- Sum of the quantities of a call sequence. -/
def sumQuantities (calls : List MintCall) : Nat :=
  (calls.map (fun c => c.quantity)).sum

/-- The checks of `mint_boxes` that precede the supply accounting: program id
and quantity band (`lib.rs` 139–147). -/
def mintPreOk (cfg : BoxMinterConfig) (e : MintBoxesEnv) (quantity : Nat) : Prop :=
  e.mplCoreProgramOk = true ∧ 1 ≤ quantity ∧
    quantity ≤ min cfg.maxPerTx MAX_SAFE_MINTS_PER_TX

/-- Lookup in an association list of accounts. -/
def mapGet {α : Type} : List (Pubkey × α) → Pubkey → Option α
  | [], _ => none
  | p :: m, k => if p.1 = k then some p.2 else mapGet m k

/-- Delete an account (removing every entry for the key). -/
def mapDel {α : Type} : List (Pubkey × α) → Pubkey → List (Pubkey × α)
  | [], _ => []
  | p :: m, k => if p.1 = k then mapDel m k else p :: mapDel m k

/-- Write an account (replacing any previous entry for the key). -/
def mapSet {α : Type} (m : List (Pubkey × α)) (k : Pubkey) (v : α) :
    List (Pubkey × α) :=
  (k, v) :: mapDel m k

/-- The fields of an MPL-Core `BaseAssetV1` that the program reads
(`ParsedMplCoreBaseAssetV1`): Solana owner field, update-authority enum
(0 = None, 1 = Address, 2 = Collection) with its key, and the metadata.
An entry in the asset map also stands for "this account is owned by the
MPL-Core program and parses as an `AssetV1`". -/
structure AssetData where
  owner : Pubkey
  updateAuthorityKind : Nat
  updateAuthority : Pubkey
  name : String
  uri : String
  deriving DecidableEq, Repr

/-- An MPL-Core asset map. -/
abbrev AssetMap := List (Pubkey × AssetData)

/-- `DeliveryRecord`. -/
structure DeliveryRecord where
  payer : Pubkey
  deliveryFeeLamports : Nat
  itemCount : Nat
  deriving DecidableEq, Repr

/-- The `dudes: [Pubkey; 3]` array of a pending record. -/
structure Dudes where
  d0 : Pubkey
  d1 : Pubkey
  d2 : Pubkey
  deriving DecidableEq, Repr

/-- `PendingOpenBox`. -/
structure PendingOpenBox where
  owner : Pubkey
  boxAsset : Pubkey
  dudes : Dudes
  createdSlot : Nat
  bump : Nat
  deriving DecidableEq, Repr

/-- The on-chain state the stateful handlers touch: the config account, the
MPL-Core assets, the program's delivery and pending-open records, and the
cumulative lamports the program has moved from payers to the treasury as
delivery fees. -/
structure World where
  config : BoxMinterConfig
  assets : AssetMap
  deliveries : List (Pubkey × DeliveryRecord)
  pendings : List (Pubkey × PendingOpenBox)
  feesPaidToTreasury : Nat
  deriving DecidableEq, Repr

/-- Modelled from the spec: MPL-Core `TransferV1`, the external registry's
transfer operation (spec §6: "Transfer(address, collection,
authority_signature, new_owner) → owner field updated", requiring a valid
authority). The asset must exist and the signing authority must be its
owner; the owner field is updated to `newOwner`. -/
def mplTransfer (assets : AssetMap) (asset authority newOwner : Pubkey) :
    Except Err AssetMap :=
  match mapGet assets asset with
  | none => .error .ExternalProgramFailure
  | some d =>
    if ¬ (d.owner = authority) then .error .ExternalProgramFailure
    else .ok (mapSet assets asset { d with owner := newOwner })

/-- Modelled from the spec: MPL-Core `BurnV1` (spec §6: "Burn(address,
collection, authority_signature) → asset ceases to exist"). The asset must
exist and the signing authority must be its owner. -/
def mplBurn (assets : AssetMap) (asset authority : Pubkey) :
    Except Err AssetMap :=
  match mapGet assets asset with
  | none => .error .ExternalProgramFailure
  | some d =>
    if ¬ (d.owner = authority) then .error .ExternalProgramFailure
    else .ok (mapDel assets asset)

/-- Modelled from the spec: MPL-Core `UpdateV2` as `finalize_open_box` uses
it (spec §6: "Update(address, authority_signature, new_name?, new_uri?,
new_collection?) → metadata/collection fields updated"). The asset must
exist with the signer as its (Address-kind) update authority; the name and
URI are replaced and the update authority becomes `Collection(newCollection)`. -/
def mplUpdateIntoCollection (assets : AssetMap) (asset authority : Pubkey)
    (newName newUri : String) (newCollection : Pubkey) : Except Err AssetMap :=
  match mapGet assets asset with
  | none => .error .ExternalProgramFailure
  | some d =>
    if ¬ (d.updateAuthorityKind = 1 ∧ d.updateAuthority = authority) then
      .error .ExternalProgramFailure
    else .ok (mapSet assets asset
      { d with name := newName, uri := newUri,
               updateAuthorityKind := 2, updateAuthority := newCollection })

/-- The digit loop of `parse_ref_id_from_uri_bytes` (`lib.rs` 1601–1608):
every character must be an ASCII digit and the accumulator uses `u32`
checked multiplication and addition. -/
def digitsToNatChecked (cs : List Char) : Option Nat :=
  cs.foldlM
    (fun acc c =>
      if ¬ c.isDigit then none
      else if ¬ (acc * 10 ≤ U32_MAX) then none
      else if ¬ (acc * 10 + (c.toNat - 48) ≤ U32_MAX) then none
      else some (acc * 10 + (c.toNat - 48)))
    0

/-- `parse_ref_id_from_uri_bytes` (`lib.rs` 1578–1613): strip the base (and
a separating `/` when the base does not end in one), require a nonempty,
slash-free, all-digit stem followed by `".json"`, and parse it as a nonzero
checked `u32`. -/
def parseRefIdFromUri (uri uriBase : String) : Option Nat :=
  if strEndsWith uriBase ".json" then none
  else if ¬ (strStartsWith uri uriBase = true) then none
  else
    let rest0 := uri.data.drop uriBase.data.length
    let restOpt : Option (List Char) :=
      if ¬ (strEndsWith uriBase "/" = true) then
        match rest0 with
        | '/' :: tl => some tl
        | _ => none
      else some rest0
    match restOpt with
    | none => none
    | some rest =>
      if rest.length < 5 ∨ ¬ (".json".data <:+ rest) then none
      else
        let stem := rest.take (rest.length - 5)
        if stem.isEmpty ∨ stem.any (fun c => c = '/') then none
        else
          match digitsToNatChecked stem with
          | none => none
          | some out => if out = 0 then none else some out

/-- `verify_core_asset_owned_by_uri` (`lib.rs` 1697–1726): the account must
be an MPL-Core asset (= present in the asset map), with the expected owner,
a Collection-kind update authority equal to the configured collection, and a
URI matching the expected base (verbatim in shared-`.json` mode, otherwise
with a parseable ref id, optionally pinned to `expectedRefId`). -/
def verifyCoreAssetOwnedByUri (assets : AssetMap) (assetKey owner coreCollection : Pubkey)
    (expectedUriBase : String) (expectedRefId : Option Nat) : Except Err Unit :=
  match mapGet assets assetKey with
  | none => .error .InvalidAsset
  | some d =>
    if ¬ (d.owner = owner) then .error .InvalidAssetOwner
    else if ¬ (d.updateAuthorityKind = 2 ∧ d.updateAuthority = coreCollection) then
      .error .InvalidAssetCollection
    else if strEndsWith expectedUriBase ".json" then
      if ¬ (d.uri = expectedUriBase) then .error .InvalidAssetMetadata
      else if ¬ (expectedRefId = none) then .error .InvalidAssetMetadata
      else .ok ()
    else
      match parseRefIdFromUri d.uri expectedUriBase with
      | none => .error .InvalidAssetMetadata
      | some parsed =>
        match expectedRefId with
        | some expected =>
          if ¬ (parsed = expected) then .error .InvalidAssetMetadata
          else .ok ()
        | none => .ok ()

/-- An account meta of a top-level instruction as read back from the
instructions sysvar. -/
structure IxAccountMeta where
  pubkey : Pubkey
  isSigner : Bool
  isWritable : Bool
  deriving DecidableEq, Repr

/-- A top-level instruction of the transaction as read back from the
instructions sysvar; `data` is the raw byte list. -/
structure SysIx where
  programId : Pubkey
  accounts : List IxAccountMeta
  data : List Nat
  deriving DecidableEq, Repr

/-- `require_next_ix_is_mpl_core_transfer_of_asset_to` (`lib.rs` 1615–1695):
look up the instruction at `current_index + 1 + offset` (a failing lookup is
`MissingTransferInstruction`), then require the MPL-Core program id, a
`TransferV1` discriminator 14 with `compression_proof = None` (byte 0), and
the fixed account layout asset / collection / payer-signer / owner-signer /
new-owner; every mismatch is `InvalidTransferInstruction`. The source's
interleaved `get`/check pairs are collapsed into one account match (same
error on any miss). -/
def requireNextIxIsMplCoreTransfer (ixs : List SysIx) (currentIndex offset : Nat)
    (asset coreCollection owner newOwner : Pubkey) : Except Err Unit :=
  match ixs.get? (currentIndex + 1 + offset) with
  | none => .error .MissingTransferInstruction
  | some ix =>
    if ¬ (ix.programId = Pubkey.mplCore) then .error .InvalidTransferInstruction
    else if ¬ (2 ≤ ix.data.length) then .error .InvalidTransferInstruction
    else if ¬ (ix.data.get? 0 = some 14 ∧ ix.data.get? 1 = some 0) then
      .error .InvalidTransferInstruction
    else
      match ix.accounts.get? 0, ix.accounts.get? 1, ix.accounts.get? 2,
            ix.accounts.get? 3, ix.accounts.get? 4 with
      | some a0, some a1, some a2, some a3, some a4 =>
        if ¬ (a0.pubkey = asset) then .error .InvalidTransferInstruction
        else if ¬ (a1.pubkey = coreCollection) then .error .InvalidTransferInstruction
        else if ¬ (a2.pubkey = owner ∧ a2.isSigner = true) then
          .error .InvalidTransferInstruction
        else if ¬ (a3.pubkey = owner ∧ a3.isSigner = true) then
          .error .InvalidTransferInstruction
        else if ¬ (a4.pubkey = newOwner) then .error .InvalidTransferInstruction
        else .ok ()
      | _, _, _, _, _ => .error .InvalidTransferInstruction

/-- `DeliverArgs`; `bumpOk` stands for "`create_program_address` with the
client-supplied `delivery_bump` succeeds" (a wrong bump makes it fail). -/
structure DeliverArgs where
  deliveryId : Nat
  deliveryFeeLamports : Nat
  bumpOk : Bool
  deriving DecidableEq, Repr

/-- The accounts of a `deliver` call: signers, the client-supplied delivery
record account, the item accounts (`remaining_accounts`), and the
account-dependent checks (program ids, payment CPI). -/
structure DeliverEnv where
  cosigner : Pubkey
  payer : Pubkey
  deliveryAccount : Pubkey
  items : List Pubkey
  mplCoreProgramOk : Bool
  logWrapperOk : Bool
  paymentOk : Bool
  deriving DecidableEq, Repr

/-- The `deliver` item loop (`lib.rs` 866–881): transfer every supplied
asset to the treasury via `TransferV1`, with the payer as both payer and
owner/authority. -/
def transferAll (assets : AssetMap) (items : List Pubkey)
    (authority newOwner : Pubkey) : Except Err AssetMap :=
  match items with
  | [] => .ok assets
  | i :: rest =>
    match mplTransfer assets i authority newOwner with
    | .error er => .error er
    | .ok assets1 => transferAll assets1 rest authority newOwner

/-- `deliver` (`lib.rs` 741–885): cosigner gate, fee band, item-count band
(the source compares `len() as u8` and stores `len() as u16`, hence the
wrapping `% 256` / `% 65536`),
program-id checks, delivery-PDA re-derivation, the "record must not already
exist" check (`data_is_empty`), record creation, fee capture, and the
transfer of every item into vault custody. -/
def deliver (w : World) (a : DeliverArgs) (e : DeliverEnv) : Except Err World :=
  if ¬ (e.cosigner = w.config.admin) then .error .InvalidCosigner
  else if ¬ (MIN_DELIVERY_LAMPORTS ≤ a.deliveryFeeLamports ∧
             a.deliveryFeeLamports ≤ MAX_DELIVERY_LAMPORTS) then
    .error .InvalidDeliveryFee
  else if e.items.isEmpty then .error .InvalidQuantity
  else if ¬ (e.items.length % 256 ≤ MAX_SAFE_DELIVERY_ITEMS_PER_TX) then
    .error .InvalidQuantity
  else if ¬ (e.mplCoreProgramOk = true) then .error .InvalidMplCoreProgram
  else if ¬ (e.logWrapperOk = true) then .error .InvalidLogWrapper
  else if ¬ (a.bumpOk = true) then .error .InvalidDeliveryPda
  else if ¬ (e.deliveryAccount = Pubkey.deliveryPda a.deliveryId) then
    .error .InvalidDeliveryPda
  else if ¬ (mapGet w.deliveries (Pubkey.deliveryPda a.deliveryId) = none) then
    .error .DeliveryAlreadyExists
  else if 0 < a.deliveryFeeLamports ∧ ¬ (e.paymentOk = true) then
    .error .ExternalProgramFailure
  else
    match transferAll w.assets e.items e.payer w.config.treasury with
    | .error er => .error er
    | .ok assets1 =>
      .ok { w with
        deliveries := mapSet w.deliveries (Pubkey.deliveryPda a.deliveryId)
          { payer := e.payer
            deliveryFeeLamports := a.deliveryFeeLamports
            itemCount := e.items.length % 65536 }
        assets := assets1
        feesPaidToTreasury :=
          if 0 < a.deliveryFeeLamports then
            w.feesPaidToTreasury + a.deliveryFeeLamports
          else w.feesPaidToTreasury }

/-- The state left by a `deliver` call (rollback on error). -/
def applyDeliver (w : World) (a : DeliverArgs) (e : DeliverEnv) : World :=
  match deliver w a e with
  | .ok w' => w'
  | .error _ => w

/-- The accounts of a `start_open_box` call: payer, the box asset, the
instructions sysvar content, the supplied placeholder accounts
(`remaining_accounts`), and the program-id check. `createdSlot` is the
clock slot stored into the pending record. -/
structure StartOpenBoxEnv where
  payer : Pubkey
  boxAsset : Pubkey
  ixs : List SysIx
  currentIndex : Nat
  remaining : List Pubkey
  mplCoreProgramOk : Bool
  createdSlot : Nat
  pendingBump : Nat
  deriving DecidableEq, Repr

/-- The empty-metadata placeholder asset created by `start_open_box`
(`lib.rs` 405–494): owner is the vault (`config.treasury`), update authority
is the config PDA (Address kind), no collection, empty name and URI. -/
def placeholderAsset (cfg : BoxMinterConfig) : AssetData :=
  { owner := cfg.treasury
    updateAuthorityKind := 1
    updateAuthority := Pubkey.configPda
    name := ""
    uri := "" }

/-- The placeholder-creation loop of `start_open_box` (`lib.rs` 442–494):
for each index, re-derive the `pdude` PDA, require the supplied account to
match and to be uninitialized, and create the placeholder asset there. -/
def createPlaceholders (cfg : BoxMinterConfig) (pendingKey : Pubkey) :
    AssetMap → Nat → List Pubkey → Except Err AssetMap
  | assets, _, [] => .ok assets
  | assets, i, k :: rest =>
    let expected := Pubkey.pendingDudePda pendingKey i
    if ¬ (k = expected) then .error .InvalidAssetPda
    else if ¬ (mapGet assets expected = none) then .error .InvalidAssetPda
    else createPlaceholders cfg pendingKey
      (mapSet assets expected (placeholderAsset cfg)) (i + 1) rest

/-- `start_open_box` (`lib.rs` 369–505): Anchor `init` of the pending PDA
(fails when it already exists), program-id check, defensive box
verification, the next-instruction transfer requirement, creation of the 3
placeholder assets, and persistence of the pending record. -/
def startOpenBox (w : World) (e : StartOpenBoxEnv) : Except Err World :=
  let cfg := w.config
  let pendingKey := Pubkey.pendingPda e.boxAsset
  if ¬ (mapGet w.pendings pendingKey = none) then .error .AccountAlreadyInUse
  else if ¬ (e.mplCoreProgramOk = true) then .error .InvalidMplCoreProgram
  else
    match verifyCoreAssetOwnedByUri w.assets e.boxAsset e.payer
        cfg.coreCollection cfg.uriBase none with
    | .error er => .error er
    | .ok _ =>
      match requireNextIxIsMplCoreTransfer e.ixs e.currentIndex 0 e.boxAsset
          cfg.coreCollection e.payer cfg.treasury with
      | .error er => .error er
      | .ok _ =>
        if ¬ (e.remaining.length = DUDES_PER_BOX) then
          .error .InvalidRemainingAccounts
        else
          match createPlaceholders cfg pendingKey w.assets 0 e.remaining with
          | .error er => .error er
          | .ok assets1 =>
            let record : PendingOpenBox :=
              { owner := e.payer
                boxAsset := e.boxAsset
                dudes :=
                  { d0 := Pubkey.pendingDudePda pendingKey 0
                    d1 := Pubkey.pendingDudePda pendingKey 1
                    d2 := Pubkey.pendingDudePda pendingKey 2 }
                createdSlot := e.createdSlot
                bump := e.pendingBump }
            .ok { w with assets := assets1,
                         pendings := mapSet w.pendings pendingKey record }

/-- `FinalizeOpenBoxArgs` (`dude_ids: [u16; 3]`). -/
structure FinalizeArgs where
  d0 : Nat
  d1 : Nat
  d2 : Nat
  deriving DecidableEq, Repr

/-- The accounts of a `finalize_open_box` call: cosigner, box asset, user,
the supplied placeholder accounts (`remaining_accounts`), and the program-id
checks. -/
structure FinalizeEnv where
  cosigner : Pubkey
  boxAsset : Pubkey
  user : Pubkey
  remaining : List Pubkey
  mplCoreProgramOk : Bool
  logWrapperOk : Bool
  deriving DecidableEq, Repr

/-- One iteration of the finalize loop (`lib.rs` 668–736): `UpdateV2` the
placeholder to the revealed figure's metadata and into the collection, then
`TransferV1` it to the user. -/
def finalizeDude (assets : AssetMap) (cfg : BoxMinterConfig)
    (figuresUriBase : String) (dudeKey : Pubkey) (dudeId : Nat)
    (cosigner user : Pubkey) : Except Err AssetMap :=
  match mplUpdateIntoCollection assets dudeKey Pubkey.configPda
      ("mons figure #" ++ toString dudeId)
      (figuresUriBase ++ toString dudeId ++ ".json") cfg.coreCollection with
  | .error er => .error er
  | .ok assets1 => mplTransfer assets1 dudeKey cosigner user

/-- The item phase of `finalize_open_box` (`lib.rs` 566–736), for a
remaining-accounts list `[r0, r1, r2]`: the match against the stored
placeholder addresses, the defensive box verification, the box burn, the
figures URI-base derivation, the three reveal-and-transfer iterations, and
the closing of the pending record. -/
def finalizeItems (w : World) (a : FinalizeArgs) (e : FinalizeEnv)
    (p : PendingOpenBox) (r0 r1 r2 : Pubkey) : Except Err World :=
  if ¬ (r0 = p.dudes.d0 ∧ r1 = p.dudes.d1 ∧ r2 = p.dudes.d2) then
    .error .InvalidRemainingAccounts
  else
    match verifyCoreAssetOwnedByUri w.assets e.boxAsset w.config.treasury
        w.config.coreCollection w.config.uriBase none with
    | .error er => .error er
    | .ok _ =>
      match mplBurn w.assets e.boxAsset e.cosigner with
      | .error er => .error er
      | .ok assets1 =>
        match deriveFiguresUriBase w.config.uriBase with
        | .error er => .error er
        | .ok fb =>
          match finalizeDude assets1 w.config fb p.dudes.d0 a.d0
              e.cosigner e.user with
          | .error er => .error er
          | .ok assets2 =>
            match finalizeDude assets2 w.config fb p.dudes.d1 a.d1
                e.cosigner e.user with
            | .error er => .error er
            | .ok assets3 =>
              match finalizeDude assets3 w.config fb p.dudes.d2 a.d2
                  e.cosigner e.user with
              | .error er => .error er
              | .ok assets4 =>
                .ok { w with assets := assets4,
                             pendings := mapDel w.pendings
                               (Pubkey.pendingPda e.boxAsset) }

/-- The handler body of `finalize_open_box` once Anchor has resolved the
pending record `p`. -/
def finalizeChecked (w : World) (a : FinalizeArgs) (e : FinalizeEnv)
    (p : PendingOpenBox) : Except Err World :=
  if ¬ (e.cosigner = w.config.admin) then .error .InvalidCosigner
  else if ¬ (e.cosigner = w.config.treasury) then .error .InvalidCosigner
  else if ¬ (e.mplCoreProgramOk = true) then .error .InvalidMplCoreProgram
  else if ¬ (e.logWrapperOk = true) then .error .InvalidLogWrapper
  else if ¬ (1 ≤ a.d0 ∧ a.d0 ≤ MAX_DUDE_ID) then .error .InvalidDudeId
  else if ¬ (1 ≤ a.d1 ∧ a.d1 ≤ MAX_DUDE_ID) then .error .InvalidDudeId
  else if ¬ (1 ≤ a.d2 ∧ a.d2 ≤ MAX_DUDE_ID) then .error .InvalidDudeId
  else if ¬ (a.d0 ≠ a.d1 ∧ a.d0 ≠ a.d2 ∧ a.d1 ≠ a.d2) then
    .error .DuplicateDudeId
  else if ¬ (p.boxAsset = e.boxAsset) then .error .InvalidPendingRecord
  else if ¬ (e.user = p.owner) then .error .InvalidPendingRecord
  else
    match e.remaining with
    | [r0, r1, r2] => finalizeItems w a e p r0 r1 r2
    | _ => .error .InvalidRemainingAccounts

/-- `finalize_open_box` (`lib.rs` 514–739): Anchor resolution of the pending
PDA (a missing or already-closed record fails), then the checked handler
body: the double cosigner gate (admin and treasury), program-id checks,
dude-id range and distinctness validation, pending-record consistency
checks, and the item phase. -/
def finalizeOpenBox (w : World) (a : FinalizeArgs) (e : FinalizeEnv) :
    Except Err World :=
  match mapGet w.pendings (Pubkey.pendingPda e.boxAsset) with
  | none => .error .AccountNotInitialized
  | some p => finalizeChecked w a e p

/-- The state left by a `finalize_open_box` call (rollback on error). -/
def applyFinalize (w : World) (a : FinalizeArgs) (e : FinalizeEnv) : World :=
  match finalizeOpenBox w a e with
  | .ok w' => w'
  | .error _ => w

/-- `MintReceiptsArgs`. -/
structure MintReceiptsArgs where
  boxIds : List Nat
  dudeIds : List Nat
  deriving DecidableEq, Repr

/-- The accounts of a `mint_receipts` call: cosigner plus the program-id and
receipts-tree checks and the Bubblegum mint CPI successes. -/
structure MintReceiptsEnv where
  cosigner : Pubkey
  bubblegumProgramOk : Bool
  logWrapperOk : Bool
  compressionProgramOk : Bool
  mplCoreProgramOk : Bool
  cpiSignerOk : Bool
  merkleTreeOwnerOk : Bool
  treeConfigOk : Bool
  mintOk : Bool
  deriving DecidableEq, Repr

/-- `mint_receipts` (`lib.rs` 942–1155): double cosigner gate (admin and
treasury), program-id checks, batch-size band, id range and duplicate
validation, receipts-tree checks, receipt URI-base derivations, then the
Bubblegum `mintV2` loop. Returns the minted receipts' `(name, uri)`
metadata. -/
def mintReceipts (cfg : BoxMinterConfig) (a : MintReceiptsArgs)
    (e : MintReceiptsEnv) : Except Err (List (String × String)) :=
  if ¬ (e.cosigner = cfg.admin) then .error .InvalidCosigner
  else if ¬ (e.cosigner = cfg.treasury) then .error .InvalidCosigner
  else if ¬ (e.bubblegumProgramOk = true) then .error .InvalidBubblegumProgram
  else if ¬ (e.logWrapperOk = true) then .error .InvalidMplNoopProgram
  else if ¬ (e.compressionProgramOk = true) then .error .InvalidCompressionProgram
  else if ¬ (e.mplCoreProgramOk = true) then .error .InvalidMplCoreProgram
  else if ¬ (e.cpiSignerOk = true) then .error .InvalidMplCoreCpiSigner
  else if ¬ (0 < a.boxIds.length + a.dudeIds.length) then .error .InvalidQuantity
  else if ¬ (a.boxIds.length + a.dudeIds.length ≤ 24) then .error .InvalidQuantity
  else if ¬ (a.boxIds.all (fun id => decide (1 ≤ id ∧ id ≤ cfg.maxSupply)) = true) then
    .error .InvalidAssetMetadata
  else if ¬ (a.dudeIds.all (fun id => decide (1 ≤ id ∧ id ≤ MAX_DUDE_ID)) = true) then
    .error .InvalidDudeId
  else if ¬ a.boxIds.Nodup then .error .InvalidAssetMetadata
  else if ¬ a.dudeIds.Nodup then .error .DuplicateDudeId
  else if ¬ (e.merkleTreeOwnerOk = true) then .error .InvalidReceiptsMerkleTree
  else if ¬ (e.treeConfigOk = true) then .error .InvalidReceiptsTreeConfig
  else
    match deriveReceiptsBoxesUriBase cfg.uriBase with
    | .error er => .error er
    | .ok rb =>
      match deriveReceiptsFiguresUriBase cfg.uriBase with
      | .error er => .error er
      | .ok rf =>
        if ¬ (e.mintOk = true) then .error .ExternalProgramFailure
        else .ok
          ((a.boxIds.map (fun id =>
              ("mons receipt · box " ++ toString id,
               rb ++ toString id ++ ".json"))) ++
           (a.dudeIds.map (fun id =>
              ("mons receipt · figure #" ++ toString id,
               rf ++ toString id ++ ".json"))))

/-! ## Association-list map lemmas -/

theorem mapGet_del_same {α : Type} (m : List (Pubkey × α)) (k : Pubkey) :
    mapGet (mapDel m k) k = none := by
  induction m with
  | nil => rfl
  | cons a l ih =>
    by_cases ha : a.1 = k
    · simpa [mapDel, ha] using ih
    · simpa [mapDel, mapGet, ha] using ih

theorem mapGet_del_other {α : Type} (m : List (Pubkey × α)) (k k' : Pubkey)
    (h : k' ≠ k) : mapGet (mapDel m k) k' = mapGet m k' := by
  have hk : ¬ k = k' := fun hk => h hk.symm
  induction m with
  | nil => rfl
  | cons a l ih =>
    by_cases ha : a.1 = k
    · simp [mapDel, mapGet, ha, hk, ih]
    · by_cases ha' : a.1 = k'
      · simp [mapDel, mapGet, ha, ha', hk, h]
      · simp [mapDel, mapGet, ha, ha', ih]

theorem mapGet_set_same {α : Type} (m : List (Pubkey × α)) (k : Pubkey) (v : α) :
    mapGet (mapSet m k v) k = some v := by
  simp [mapGet, mapSet]

theorem mapGet_set_other {α : Type} (m : List (Pubkey × α)) (k k' : Pubkey) (v : α)
    (h : k' ≠ k) : mapGet (mapSet m k v) k' = mapGet m k' := by
  simp only [mapSet, mapGet]
  rw [if_neg (fun hk => h hk.symm)]
  exact mapGet_del_other m k k' h

/-! ## Inversion and runner lemmas for `mint_boxes` -/

set_option maxHeartbeats 1000000 in
theorem mintBoxes_ok_inv {cfg : BoxMinterConfig} {e : MintBoxesEnv} {q : Nat}
    {cfg' : BoxMinterConfig} {l : List (String × String)}
    (h : mintBoxes cfg e q = .ok (cfg', l)) :
    cfg' = { cfg with minted := cfg.minted + q } ∧
      1 ≤ q ∧ q ≤ min cfg.maxPerTx MAX_SAFE_MINTS_PER_TX ∧
      cfg.minted + q ≤ cfg.maxSupply := by
  unfold mintBoxes at h
  repeat' split at h
  all_goals try exact Except.noConfusion h
  simp only [not_not] at *
  simp only [Except.ok.injEq, Prod.mk.injEq] at h
  obtain ⟨hc, -⟩ := h
  refine ⟨hc.symm, ?_, ?_, ?_⟩ <;> assumption

theorem applyMint_minted_mono (cfg : BoxMinterConfig) (e : MintBoxesEnv) (q : Nat) :
    cfg.minted ≤ (applyMint cfg e q).minted := by
  unfold applyMint
  split
  · next c' l h =>
    obtain ⟨rfl, -, -, -⟩ := mintBoxes_ok_inv h
    simp
  · exact le_refl _

theorem applyMint_shape (cfg : BoxMinterConfig) (e : MintBoxesEnv) (q : Nat) :
    (applyMint cfg e q).maxSupply = cfg.maxSupply ∧
      (applyMint cfg e q).minted ≤ max cfg.minted cfg.maxSupply := by
  unfold applyMint
  split
  · next c' l h =>
    obtain ⟨rfl, -, -, hle⟩ := mintBoxes_ok_inv h
    exact ⟨rfl, le_max_of_le_right hle⟩
  · exact ⟨rfl, le_max_left _ _⟩

theorem runMints_minted_mono (calls : List MintCall) :
    ∀ cfg : BoxMinterConfig, cfg.minted ≤ (runMints cfg calls).minted := by
  induction calls with
  | nil => intro cfg; exact le_refl _
  | cons c cs ih =>
    intro cfg
    exact le_trans (applyMint_minted_mono cfg c.env c.quantity) (ih _)

theorem runMints_maxSupply (calls : List MintCall) :
    ∀ cfg : BoxMinterConfig, (runMints cfg calls).maxSupply = cfg.maxSupply := by
  induction calls with
  | nil => intro cfg; rfl
  | cons c cs ih =>
    intro cfg
    rw [runMints, ih, (applyMint_shape cfg c.env c.quantity).1]

theorem runMints_le_supply (calls : List MintCall) :
    ∀ cfg : BoxMinterConfig, cfg.minted ≤ cfg.maxSupply →
      (runMints cfg calls).minted ≤ cfg.maxSupply := by
  induction calls with
  | nil => intro cfg h; exact h
  | cons c cs ih =>
    intro cfg h
    rw [runMints]
    have h1 := (applyMint_shape cfg c.env c.quantity).1
    have h2 := (applyMint_shape cfg c.env c.quantity).2
    have : (applyMint cfg c.env c.quantity).minted ≤
        (applyMint cfg c.env c.quantity).maxSupply := by
      rw [h1]; exact le_trans h2 (by simp [h])
    simpa [h1] using ih _ this

theorem runMints_sum (calls : List MintCall) :
    ∀ cfg : BoxMinterConfig, mintsSucceed cfg calls →
      (runMints cfg calls).minted = cfg.minted + sumQuantities calls := by
  induction calls with
  | nil => intro cfg _; simp [runMints, sumQuantities]
  | cons c cs ih =>
    intro cfg h
    obtain ⟨hok, hrest⟩ := h
    rw [runMints, ih _ hrest]
    have : (applyMint cfg c.env c.quantity).minted = cfg.minted + c.quantity := by
      unfold applyMint
      cases hm : mintBoxes cfg c.env c.quantity with
      | ok p =>
        obtain ⟨cfg', l⟩ := p
        obtain ⟨rfl, -, -, -⟩ := mintBoxes_ok_inv hm
        simp
      | error er => rw [hm] at hok; simp [Except.isOk, Except.toBool] at hok
    rw [this]
    simp only [sumQuantities, List.map_cons, List.sum_cons]
    omega

/-! ## String lemmas for the metadata template -/

theorem strStartsWith_of_data {s p : String} (h : ∃ t, p.data ++ t = s.data) :
    strStartsWith s p = true := by
  simp only [strStartsWith, decide_eq_true_eq]
  exact h

theorem strEndsWith_of_data {s p : String} (h : ∃ t, t ++ p.data = s.data) :
    strEndsWith s p = true := by
  simp only [strEndsWith, decide_eq_true_eq]
  exact h

theorem mintUri_startsWith (base : String) (k : Nat) (hb : base ≠ "")
    (hj : strEndsWith base ".json" = false) :
    strStartsWith (mintUri base k) base = true := by
  unfold mintUri
  rw [if_pos ⟨hb, hj⟩]
  by_cases hs : strEndsWith base "/" = false
  · rw [if_pos hs]
    exact strStartsWith_of_data
      ⟨"/".data ++ (toString k).data ++ ".json".data, by simp [String.data_append]⟩
  · rw [if_neg hs]
    exact strStartsWith_of_data
      ⟨(toString k).data ++ ".json".data, by simp [String.data_append]⟩

theorem mintUri_endsWith (base : String) (k : Nat) (hb : base ≠ "")
    (hj : strEndsWith base ".json" = false) :
    strEndsWith (mintUri base k) (toString k ++ ".json") = true := by
  unfold mintUri
  rw [if_pos ⟨hb, hj⟩]
  by_cases hs : strEndsWith base "/" = false
  · rw [if_pos hs]
    exact strEndsWith_of_data
      ⟨base.data ++ "/".data, by simp [String.data_append]⟩
  · rw [if_neg hs]
    exact strEndsWith_of_data ⟨base.data, by simp [String.data_append]⟩

/-- The metadata list returned by a successful mint loop: unit `j` of the
batch starting at index `i` carries sequence number `minted + 1 + (i + j)`. -/
theorem mintLoop_metadata (cfg : BoxMinterConfig) (e : MintBoxesEnv) :
    ∀ (n i : Nat) (l : List (String × String)), mintLoop cfg e i n = .ok l →
      l = (List.range n).map (fun j =>
        (mintName cfg.namePre (cfg.minted + 1 + (i + j)),
         mintUri cfg.uriBase (cfg.minted + 1 + (i + j)))) := by
  intro n
  induction n with
  | zero =>
    intro i l h
    simp only [mintLoop] at h
    injection h with h1
    simp [← h1]
  | succ n ih =>
    intro i l h
    unfold mintLoop at h
    repeat' split at h
    all_goals try exact Except.noConfusion h
    next rest heq =>
      injection h with h1
      rw [← h1, ih (i + 1) rest heq]
      simp only [List.range_succ_eq_map, List.map_cons, List.map_map,
        List.cons.injEq]
      refine ⟨by simp, ?_⟩
      apply List.map_congr_left
      intro j hj
      have h2 : i + 1 + j = i + (j + 1) := by omega
      simp [Function.comp, h2]

set_option maxHeartbeats 1000000 in
/-- A successful `mint_boxes` call's metadata list, extracted. -/
theorem mintBoxes_ok_created {cfg : BoxMinterConfig} {e : MintBoxesEnv}
    {q : Nat} {cfg' : BoxMinterConfig} {l : List (String × String)}
    (h : mintBoxes cfg e q = .ok (cfg', l)) : mintLoop cfg e 0 q = .ok l := by
  unfold mintBoxes at h
  repeat' split at h
  all_goals try exact Except.noConfusion h
  simp_all

/-! ## Concrete instances used by witnesses -/

/-- A freshly initialized configuration (spec §8 example scenario). -/
def cfgFresh : BoxMinterConfig :=
  { admin := .raw 0, treasury := .raw 0, coreCollection := .raw 1,
    priceLamports := 100, maxSupply := 3, maxPerTx := 3, minted := 0,
    namePre := "Box", symbol := "BX", uriBase := "https://x/boxes/", bump := 0 }

/-- A fully permissive `mint_boxes` environment for `quantity` units. -/
def envMint (q : Nat) : MintBoxesEnv :=
  { mplCoreProgramOk := true, paymentOk := true, remainingLen := q,
    bumpsLen := q, pdaOk := fun _ => true, createOk := fun _ => true }

/-- `cfgFresh` after all three units have been minted. -/
def cfgFull : BoxMinterConfig := { cfgFresh with minted := 3 }

/-- A configuration whose counter sits at `u32::MAX`. -/
def cfgBig : BoxMinterConfig :=
  { cfgFresh with minted := U32_MAX, maxSupply := U32_MAX }

/-- The two-call mint sequence of the witness for the supply accounting. -/
def callsTwo : List MintCall := [⟨2, envMint 2⟩, ⟨1, envMint 1⟩]

/-- The arguments of the witness `initialize` call. -/
def argsInit : InitializeArgs :=
  { priceLamports := 100, maxSupply := 3, maxPerTx := 3, namePre := "Box",
    symbol := "BX", uriBase := "https://x/boxes/" }

/-- The accounts of the witness `initialize` call. -/
def envInit : InitializeEnv :=
  { admin := .raw 0, treasury := .raw 0, coreCollection := .raw 1,
    coreCollectionNonDefault := true, coreCollectionOwnedByMplCore := true,
    bump := 0 }

/-- An asset owned by the delivering payer, in the configured collection,
whose URI matches no template. -/
def itemAsset : AssetData :=
  { owner := .raw 5, updateAuthorityKind := 2, updateAuthority := .raw 1,
    name := "x", uri := "zzz" }

/-- The concrete world of the deliver witnesses: one deliverable item. -/
def wDeliver : World :=
  { config := cfgFresh, assets := [(.raw 7, itemAsset)], deliveries := [],
    pendings := [], feesPaidToTreasury := 0 }

/-- The arguments of the witness `deliver` call. -/
def aDeliver : DeliverArgs :=
  { deliveryId := 42, deliveryFeeLamports := 1000000, bumpOk := true }

/-- The accounts of the witness `deliver` call. -/
def eDeliver : DeliverEnv :=
  { cosigner := .raw 0, payer := .raw 5, deliveryAccount := .deliveryPda 42,
    items := [.raw 7], mplCoreProgramOk := true, logWrapperOk := true,
    paymentOk := true }

/-! ## Claim theorems -/

/-- **C1**: over every sequence of successful `mint_boxes` calls from a
freshly initialized configuration (`minted = 0`), the final `minted` counter
equals the sum of the granted quantities; `minted` never decreases and never
exceeds `max_supply`; the counter is advanced with overflow-checked `u32`
addition, failing with `MathOverflow` instead of wrapping; and a call whose
quantity would push `minted` past `max_supply` fails with `SoldOut` and
leaves `minted` unchanged. -/
theorem mint_supply_accounting (a : InitializeArgs) (ie : InitializeEnv)
    (cfg0 cfg : BoxMinterConfig) (calls : List MintCall) (e : MintBoxesEnv)
    (q : Nat) :
    (initializeConfig a ie = .ok cfg0 → cfg0.minted = 0) ∧
    (mintsSucceed cfg calls →
      (runMints cfg calls).minted = cfg.minted + sumQuantities calls) ∧
    cfg.minted ≤ (runMints cfg calls).minted ∧
    (cfg.minted ≤ cfg.maxSupply → (runMints cfg calls).minted ≤ cfg.maxSupply) ∧
    (mintPreOk cfg e q → ¬ (cfg.minted + q ≤ U32_MAX) →
      mintBoxes cfg e q = .error .MathOverflow ∧ applyMint cfg e q = cfg) ∧
    (mintPreOk cfg e q → cfg.minted + q ≤ U32_MAX →
      ¬ (cfg.minted + q ≤ cfg.maxSupply) →
      mintBoxes cfg e q = .error .SoldOut ∧ applyMint cfg e q = cfg) := by
  refine ⟨?_, runMints_sum calls cfg, runMints_minted_mono calls cfg,
    runMints_le_supply calls cfg, ?_, ?_⟩
  · intro h
    unfold initializeConfig at h
    repeat' split at h
    all_goals try exact Except.noConfusion h
    injection h with h1
    rw [← h1]
  · rintro ⟨h1, h2, h3⟩ hov
    have herr : mintBoxes cfg e q = .error .MathOverflow := by
      simp [mintBoxes, h1, h2, h3, hov]
    exact ⟨herr, by simp [applyMint, herr]⟩
  · rintro ⟨h1, h2, h3⟩ hle hsup
    have herr : mintBoxes cfg e q = .error .SoldOut := by
      simp [mintBoxes, h1, h2, h3, hle, hsup]
    exact ⟨herr, by simp [applyMint, herr]⟩

/-- Witness for C1 at concrete inputs: the spec §8 scenario (3 = 2 + 1
minted out of 3), a sold-out fourth unit, and an overflow at `u32::MAX`. -/
theorem mint_supply_accounting_witness :
    cfgFresh.minted = 0 ∧
    (runMints cfgFresh callsTwo).minted = cfgFresh.minted + sumQuantities callsTwo ∧
    mintBoxes cfgFull (envMint 1) 1 = .error .SoldOut ∧
    mintBoxes cfgBig (envMint 1) 1 = .error .MathOverflow := by
  refine ⟨(mint_supply_accounting argsInit envInit cfgFresh cfgFresh callsTwo
      (envMint 1) 1).1 (by decide), ?_, ?_, ?_⟩
  · exact (mint_supply_accounting argsInit envInit cfgFresh cfgFresh callsTwo
      (envMint 1) 1).2.1 ⟨by decide, by decide, trivial⟩
  · exact ((mint_supply_accounting argsInit envInit cfgFresh cfgFull []
      (envMint 1) 1).2.2.2.2.2 ⟨rfl, by decide, by decide⟩ (by decide)
      (by decide)).1
  · exact ((mint_supply_accounting argsInit envInit cfgFresh cfgBig []
      (envMint 1) 1).2.2.2.2.1 ⟨rfl, by decide, by decide⟩ (by decide)).1

/-- **C8**: `mint_boxes` with `quantity = 0`, or with a quantity above
`min(max_per_tx, 15)`, fails with `InvalidQuantity` and leaves the state
unchanged. -/
theorem mint_quantity_band_rejection (cfg : BoxMinterConfig) (e : MintBoxesEnv)
    (q : Nat) (hm : e.mplCoreProgramOk = true)
    (hq : q = 0 ∨ min cfg.maxPerTx MAX_SAFE_MINTS_PER_TX < q) :
    mintBoxes cfg e q = .error .InvalidQuantity ∧ applyMint cfg e q = cfg := by
  have herr : mintBoxes cfg e q = .error .InvalidQuantity := by
    rcases hq with h0 | hgt
    · subst h0; simp [mintBoxes, hm]
    · by_cases hq1 : 1 ≤ q
      · have h1 : ¬ (q ≤ min cfg.maxPerTx MAX_SAFE_MINTS_PER_TX) :=
          Nat.not_le_of_lt hgt
        simp [mintBoxes, hm, hq1, h1]
      · simp [mintBoxes, hm, hq1]
  exact ⟨herr, by simp [applyMint, herr]⟩

/-- Witness for C8 at concrete inputs: quantity 0 and quantity 16 against
the fresh 3-per-tx configuration. -/
theorem mint_quantity_band_rejection_witness :
    (mintBoxes cfgFresh (envMint 0) 0 = .error .InvalidQuantity ∧
      applyMint cfgFresh (envMint 0) 0 = cfgFresh) ∧
    (mintBoxes cfgFresh (envMint 16) 16 = .error .InvalidQuantity ∧
      applyMint cfgFresh (envMint 16) 16 = cfgFresh) :=
  ⟨mint_quantity_band_rejection cfgFresh (envMint 0) 0 rfl (Or.inl rfl),
   mint_quantity_band_rejection cfgFresh (envMint 16) 16 rfl
     (Or.inr (by decide))⟩

/-- The witness configuration with an empty name prefix (`initialize` only
bounds the prefix length from above, so `""` is a legal configuration). -/
def cfgNoPre : BoxMinterConfig := { cfgFresh with namePre := "" }

/-- **C4 counterexample**: with the legally configured empty `name_prefix`,
the unit of sequence number 1 is named `"1"`, not
`name_prefix ++ " " ++ "1" = " 1"` — the claimed unconditional
`name = name_prefix + " " + k` template is false (the code omits the
separator for an empty or space-terminated prefix). -/
theorem mint_metadata_template_counterexample :
    (initializeConfig { argsInit with namePre := "" } envInit).isOk = true ∧
    mintBoxes cfgNoPre (envMint 1) 1 =
      .ok ({ cfgNoPre with minted := 1 }, [("1", "https://x/boxes/1.json")]) ∧
    ("1" : String) ≠ cfgNoPre.namePre ++ " " ++ toString 1 := by
  refine ⟨by decide, by decide, by decide⟩

/-- **C4 (amended)**: unit `j` (0-based) of a successful `mint_boxes` batch
carries sequence number `k = minted-before + 1 + j` and metadata
`(mintName name_prefix k, mintUri uri_base k)`, where the name is
`name_prefix ++ " " ++ k` when the prefix is nonempty and does not already
end in a space (no separator is added otherwise), and the URI begins with
`uri_base` and ends with `"{k}.json"` when `uri_base` is nonempty and does
not end in `".json"` — while a `".json"` (shared-metadata) or empty
`uri_base` is emitted verbatim for every unit. -/
theorem mint_metadata_template (pre base : String) (k q : Nat)
    (cfg : BoxMinterConfig) (e : MintBoxesEnv)
    (out : BoxMinterConfig × List (String × String)) :
    (pre = "" → mintName pre k = toString k) ∧
    (strEndsWith pre " " = true → mintName pre k = pre ++ toString k) ∧
    (pre ≠ "" → strEndsWith pre " " = false →
      mintName pre k = pre ++ " " ++ toString k) ∧
    (strEndsWith base ".json" = true → mintUri base k = base) ∧
    (base = "" → mintUri base k = base) ∧
    (base ≠ "" → strEndsWith base ".json" = false →
      strStartsWith (mintUri base k) base = true ∧
      strEndsWith (mintUri base k) (toString k ++ ".json") = true) ∧
    (mintBoxes cfg e q = .ok out →
      out.2 = (List.range q).map (fun j =>
        (mintName cfg.namePre (cfg.minted + 1 + j),
         mintUri cfg.uriBase (cfg.minted + 1 + j)))) := by
  refine ⟨?_, ?_, ?_, ?_, ?_,
    fun hb hj => ⟨mintUri_startsWith base k hb hj, mintUri_endsWith base k hb hj⟩,
    ?_⟩
  · intro h; subst h; simp [mintName]
  · intro h; simp [mintName, h]
  · intro h1 h2; simp [mintName, h1, h2]
  · intro h; simp [mintUri, h]
  · intro h; subst h; simp [mintUri]
  · intro h
    obtain ⟨cfg', l⟩ := out
    have h2 := mintLoop_metadata cfg e q 0 l (mintBoxes_ok_created h)
    simpa using h2

/-- Witness for the amended C4 at concrete inputs: prefix `"Box"` with base
`"https://x/boxes"` (separated template), empty prefix, and a shared
`".json"` base. -/
theorem mint_metadata_template_witness :
    mintName "Box" 2 = "Box" ++ " " ++ toString 2 ∧
    mintName "" 2 = toString 2 ∧
    strStartsWith (mintUri "https://x/boxes" 2) "https://x/boxes" = true ∧
    strEndsWith (mintUri "https://x/boxes" 2) (toString 2 ++ ".json") = true ∧
    mintUri "https://x/shared.json" 2 = "https://x/shared.json" := by
  have t1 := mint_metadata_template "Box" "https://x/boxes" 2 1 cfgFresh
    (envMint 1) (cfgFresh, [])
  have t2 := mint_metadata_template "" "https://x/shared.json" 2 1 cfgFresh
    (envMint 1) (cfgFresh, [])
  exact ⟨t1.2.2.1 (by decide) (by decide),
    t2.1 rfl,
    (t1.2.2.2.2.2.1 (by decide) (by decide)).1,
    (t1.2.2.2.2.2.1 (by decide) (by decide)).2,
    t2.2.2.2.1 (by decide)⟩

/-! ## Deliver: idempotency and custody transfer -/

/-- Inversion of a successful modelled `TransferV1`. -/
theorem mplTransfer_ok_inv {assets : AssetMap} {asset auth nown : Pubkey}
    {assets1 : AssetMap} (h : mplTransfer assets asset auth nown = .ok assets1) :
    ∃ d, mapGet assets asset = some d ∧ d.owner = auth ∧
      assets1 = mapSet assets asset { d with owner := nown } := by
  unfold mplTransfer at h
  repeat' split at h
  all_goals try exact Except.noConfusion h
  simp only [not_not] at *
  injection h with h1
  next d hg ho => exact ⟨d, hg, ho, h1.symm⟩

/-- Keys outside the item list are untouched by the deliver transfer loop. -/
theorem transferAll_get_not_mem (auth nown : Pubkey) :
    ∀ (items : List Pubkey) (assets assets1 : AssetMap) (k : Pubkey),
      k ∉ items → transferAll assets items auth nown = .ok assets1 →
      mapGet assets1 k = mapGet assets k := by
  intro items
  induction items with
  | nil =>
    intro assets assets1 k _ h
    injection h with h1
    rw [h1]
  | cons i rest ih =>
    intro assets assets1 k hk h
    unfold transferAll at h
    cases hm : mplTransfer assets i auth nown with
    | error er => rw [hm] at h; exact Except.noConfusion h
    | ok assetsMid =>
      rw [hm] at h
      obtain ⟨d, hg, ho, rfl⟩ := mplTransfer_ok_inv hm
      have hki : k ≠ i := fun hki => hk (hki ▸ List.mem_cons_self i rest)
      have hkr : k ∉ rest := fun hkr => hk (List.mem_cons_of_mem i hkr)
      rw [ih _ _ k hkr h, mapGet_set_other _ _ _ _ hki]

/-- After a successful deliver transfer loop every item is owned by the new
owner (the vault). -/
theorem transferAll_owner (auth nown : Pubkey) :
    ∀ (items : List Pubkey) (assets assets1 : AssetMap),
      transferAll assets items auth nown = .ok assets1 →
      ∀ k ∈ items, ∃ d, mapGet assets1 k = some d ∧ d.owner = nown := by
  intro items
  induction items with
  | nil => intro assets assets1 _ k hk; cases hk
  | cons i rest ih =>
    intro assets assets1 h k hk
    unfold transferAll at h
    cases hm : mplTransfer assets i auth nown with
    | error er => rw [hm] at h; exact Except.noConfusion h
    | ok assetsMid =>
      rw [hm] at h
      obtain ⟨d, hg, ho, rfl⟩ := mplTransfer_ok_inv hm
      rcases List.mem_cons.mp hk with rfl | hkr
      · by_cases hir : k ∈ rest
        · exact ih _ _ h k hir
        · refine ⟨{ d with owner := nown }, ?_, rfl⟩
          rw [transferAll_get_not_mem auth nown rest _ _ k hir h,
            mapGet_set_same]
      · exact ih _ _ h k hkr

set_option maxHeartbeats 1000000 in
/-- A successful `deliver` ran the transfer loop on its items and stored the
resulting asset map. -/
theorem deliver_ok_assets {w : World} {a : DeliverArgs} {e : DeliverEnv}
    {w1 : World} (h : deliver w a e = .ok w1) :
    ∃ assets1, transferAll w.assets e.items e.payer w.config.treasury =
      .ok assets1 ∧ w1.assets = assets1 := by
  unfold deliver at h
  by_cases c1 : e.cosigner = w.config.admin
  case neg => rw [if_pos c1] at h; exact Except.noConfusion h
  rw [if_neg (not_not_intro c1)] at h
  by_cases c2 : MIN_DELIVERY_LAMPORTS ≤ a.deliveryFeeLamports ∧
    a.deliveryFeeLamports ≤ MAX_DELIVERY_LAMPORTS
  case neg => rw [if_pos c2] at h; exact Except.noConfusion h
  rw [if_neg (not_not_intro c2)] at h
  by_cases c3 : e.items.isEmpty = true
  case pos => rw [if_pos c3] at h; exact Except.noConfusion h
  rw [if_neg c3] at h
  by_cases c4 : e.items.length % 256 ≤ MAX_SAFE_DELIVERY_ITEMS_PER_TX
  case neg => rw [if_pos c4] at h; exact Except.noConfusion h
  rw [if_neg (not_not_intro c4)] at h
  by_cases c5 : e.mplCoreProgramOk = true
  case neg => rw [if_pos c5] at h; exact Except.noConfusion h
  rw [if_neg (not_not_intro c5)] at h
  by_cases c6 : e.logWrapperOk = true
  case neg => rw [if_pos c6] at h; exact Except.noConfusion h
  rw [if_neg (not_not_intro c6)] at h
  by_cases c7 : a.bumpOk = true
  case neg => rw [if_pos c7] at h; exact Except.noConfusion h
  rw [if_neg (not_not_intro c7)] at h
  by_cases c8 : e.deliveryAccount = Pubkey.deliveryPda a.deliveryId
  case neg => rw [if_pos c8] at h; exact Except.noConfusion h
  rw [if_neg (not_not_intro c8)] at h
  by_cases c9 : mapGet w.deliveries (Pubkey.deliveryPda a.deliveryId) = none
  case neg => rw [if_pos c9] at h; exact Except.noConfusion h
  rw [if_neg (not_not_intro c9)] at h
  by_cases c10 : 0 < a.deliveryFeeLamports ∧ ¬ e.paymentOk = true
  case pos => rw [if_pos c10] at h; exact Except.noConfusion h
  rw [if_neg c10] at h
  cases ht : transferAll w.assets e.items e.payer w.config.treasury with
  | error er => rw [ht] at h; exact Except.noConfusion h
  | ok assets1 =>
    rw [ht] at h
    injection h with h1
    exact ⟨assets1, rfl, by rw [← h1]⟩

/-- **C2**: when a first `deliver` with a given `delivery_id` goes through
(all its preconditions hold), it creates the delivery record at the PDA
derived from the delivery id and charges the fee once; replaying the same
call against the resulting state fails with `DeliveryAlreadyExists` because
that record account is no longer empty, and changes nothing — the fee is
never charged twice. -/
theorem deliver_idempotent (w : World) (a : DeliverArgs) (e : DeliverEnv)
    (assets1 : AssetMap)
    (h1 : e.cosigner = w.config.admin)
    (h2 : MIN_DELIVERY_LAMPORTS ≤ a.deliveryFeeLamports)
    (h3 : a.deliveryFeeLamports ≤ MAX_DELIVERY_LAMPORTS)
    (h4 : e.items.isEmpty = false)
    (h5 : e.items.length % 256 ≤ MAX_SAFE_DELIVERY_ITEMS_PER_TX)
    (h6 : e.mplCoreProgramOk = true) (h7 : e.logWrapperOk = true)
    (h8 : a.bumpOk = true) (h9 : e.paymentOk = true)
    (h10 : e.deliveryAccount = Pubkey.deliveryPda a.deliveryId)
    (h11 : mapGet w.deliveries (Pubkey.deliveryPda a.deliveryId) = none)
    (h12 : transferAll w.assets e.items e.payer w.config.treasury =
      .ok assets1) :
    deliver w a e = .ok { w with
      deliveries := mapSet w.deliveries (Pubkey.deliveryPda a.deliveryId)
        ⟨e.payer, a.deliveryFeeLamports, e.items.length % 65536⟩,
      assets := assets1,
      feesPaidToTreasury := w.feesPaidToTreasury + a.deliveryFeeLamports } ∧
    deliver (applyDeliver w a e) a e = .error .DeliveryAlreadyExists ∧
    (applyDeliver w a e).feesPaidToTreasury =
      w.feesPaidToTreasury + a.deliveryFeeLamports ∧
    applyDeliver (applyDeliver w a e) a e = applyDeliver w a e := by
  have hfee : 0 < a.deliveryFeeLamports := by
    simp only [MIN_DELIVERY_LAMPORTS] at h2; omega
  have hok : deliver w a e = .ok { w with
      deliveries := mapSet w.deliveries (Pubkey.deliveryPda a.deliveryId)
        ⟨e.payer, a.deliveryFeeLamports, e.items.length % 65536⟩,
      assets := assets1,
      feesPaidToTreasury := w.feesPaidToTreasury + a.deliveryFeeLamports } := by
    unfold deliver
    simp [h1, h2, h3, h4, h5, h6, h7, h8, h9, h10, h11, h12, hfee]
  have happ : applyDeliver w a e = { w with
      deliveries := mapSet w.deliveries (Pubkey.deliveryPda a.deliveryId)
        ⟨e.payer, a.deliveryFeeLamports, e.items.length % 65536⟩,
      assets := assets1,
      feesPaidToTreasury := w.feesPaidToTreasury + a.deliveryFeeLamports } := by
    simp [applyDeliver, hok]
  have herr : deliver (applyDeliver w a e) a e =
      .error .DeliveryAlreadyExists := by
    rw [happ]
    unfold deliver
    simp [h1, h2, h3, h4, h5, h6, h7, h8, h10, mapGet_set_same]
  refine ⟨hok, herr, by rw [happ], ?_⟩
  rw [happ] at herr ⊢
  simp [applyDeliver, herr]

/-- Witness for C2 at a concrete world: one figure-less item, delivery id
42, fee 0.001 SOL; the replay fails and the fee total reflects exactly one
charge. -/
theorem deliver_idempotent_witness :
    deliver (applyDeliver wDeliver aDeliver eDeliver) aDeliver eDeliver =
      .error .DeliveryAlreadyExists ∧
    (applyDeliver wDeliver aDeliver eDeliver).feesPaidToTreasury =
      wDeliver.feesPaidToTreasury + aDeliver.deliveryFeeLamports := by
  have t := deliver_idempotent wDeliver aDeliver eDeliver
    (mapSet wDeliver.assets (.raw 7) { itemAsset with owner := .raw 0 })
    rfl (by decide) (by decide) (by decide) (by decide) rfl rfl rfl rfl rfl
    (by decide) (by decide)
  exact ⟨t.2.1, t.2.2.1⟩

/-- **C6 counterexample**: a `deliver` call succeeds on an item whose URI
(`"zzz"`) matches neither the box URI template nor the figures URI template
— the claimed per-item genuineness verification (owner + collection +
URI-template match, `verify_core_asset_owned_by_uri`) is not performed by
`deliver`; that helper is only called by `start_open_box` and
`finalize_open_box`. -/
theorem deliver_no_item_template_check :
    (deliver wDeliver aDeliver eDeliver).isOk = true ∧
    Pubkey.raw 7 ∈ eDeliver.items ∧
    (verifyCoreAssetOwnedByUri wDeliver.assets (.raw 7) eDeliver.payer
      wDeliver.config.coreCollection wDeliver.config.uriBase none).isOk =
      false ∧
    deriveFiguresUriBase wDeliver.config.uriBase = .ok "https://x/figures/" ∧
    (verifyCoreAssetOwnedByUri wDeliver.assets (.raw 7) eDeliver.payer
      wDeliver.config.coreCollection "https://x/figures/" none).isOk =
      false := by
  refine ⟨by decide, by decide, by decide, by decide, by decide⟩

/-- **C6 (amended)**: `deliver` performs no owner/collection/URI-template
verification of its own on the supplied items; it transfers each item to the
treasury via an MPL-Core `TransferV1` authorized by the payer (so the
external registry enforces ownership), and after a successful call every
supplied item is owned by the treasury (vault custody). -/
theorem deliver_transfers_items_to_vault (w : World) (a : DeliverArgs)
    (e : DeliverEnv) (h : (deliver w a e).isOk = true) :
    ∀ k ∈ e.items, ∃ d, mapGet (applyDeliver w a e).assets k = some d ∧
      d.owner = w.config.treasury := by
  intro k hk
  cases hd : deliver w a e with
  | error er => rw [hd] at h; simp [Except.isOk, Except.toBool] at h
  | ok w1 =>
    obtain ⟨assets1, hta, hassets⟩ := deliver_ok_assets hd
    have happ : applyDeliver w a e = w1 := by simp [applyDeliver, hd]
    rw [happ, hassets]
    exact transferAll_owner e.payer w.config.treasury e.items w.assets assets1
      hta k hk

/-- Witness for the amended C6: the delivered item of the concrete world
ends up owned by the treasury. -/
theorem deliver_transfers_items_to_vault_witness :
    ∃ d, mapGet (applyDeliver wDeliver aDeliver eDeliver).assets (.raw 7) =
      some d ∧ d.owner = wDeliver.config.treasury :=
  deliver_transfers_items_to_vault wDeliver aDeliver eDeliver (by decide)
    (.raw 7) (by decide)

/-! ## Finalize: single-use pending record, validation, cosigner gate -/

/-- Inversion of a successful item phase: the remaining accounts matched the
stored placeholder addresses and the pending record was deleted. -/
theorem finalizeItems_ok_inv {w : World} {a : FinalizeArgs} {e : FinalizeEnv}
    {p : PendingOpenBox} {r0 r1 r2 : Pubkey} {w1 : World}
    (h : finalizeItems w a e p r0 r1 r2 = .ok w1) :
    r0 = p.dudes.d0 ∧ r1 = p.dudes.d1 ∧ r2 = p.dudes.d2 ∧
      w1.pendings = mapDel w.pendings (Pubkey.pendingPda e.boxAsset) ∧
      w1.config = w.config := by
  unfold finalizeItems at h
  by_cases c11 : r0 = p.dudes.d0 ∧ r1 = p.dudes.d1 ∧ r2 = p.dudes.d2
  case neg => rw [if_pos c11] at h; exact Except.noConfusion h
  rw [if_neg (not_not_intro c11)] at h
  refine ⟨c11.1, c11.2.1, c11.2.2, ?_⟩
  cases hv : verifyCoreAssetOwnedByUri w.assets e.boxAsset w.config.treasury
      w.config.coreCollection w.config.uriBase none with
  | error er => simp only [hv] at h; exact Except.noConfusion h
  | ok u =>
    simp only [hv] at h
    cases hb : mplBurn w.assets e.boxAsset e.cosigner with
    | error er => simp only [hb] at h; exact Except.noConfusion h
    | ok assets1 =>
      simp only [hb] at h
      cases hd : deriveFiguresUriBase w.config.uriBase with
      | error er => simp only [hd] at h; exact Except.noConfusion h
      | ok fb =>
        simp only [hd] at h
        cases hf0 : finalizeDude assets1 w.config fb p.dudes.d0 a.d0
            e.cosigner e.user with
        | error er => simp only [hf0] at h; exact Except.noConfusion h
        | ok assets2 =>
          simp only [hf0] at h
          cases hf1 : finalizeDude assets2 w.config fb p.dudes.d1 a.d1
              e.cosigner e.user with
          | error er => simp only [hf1] at h; exact Except.noConfusion h
          | ok assets3 =>
            simp only [hf1] at h
            cases hf2 : finalizeDude assets3 w.config fb p.dudes.d2 a.d2
                e.cosigner e.user with
            | error er => simp only [hf2] at h; exact Except.noConfusion h
            | ok assets4 =>
              simp only [hf2, Except.ok.injEq] at h
              rw [← h]
              exact ⟨rfl, rfl⟩

/-- Inversion of a successful `finalize_open_box`: every gate held, and the
pending record was closed (deleted) in the resulting state. -/
theorem finalize_ok_inv {w : World} {a : FinalizeArgs} {e : FinalizeEnv}
    {w1 : World} (h : finalizeOpenBox w a e = .ok w1) :
    ∃ p, mapGet w.pendings (Pubkey.pendingPda e.boxAsset) = some p ∧
      e.cosigner = w.config.admin ∧ e.cosigner = w.config.treasury ∧
      p.boxAsset = e.boxAsset ∧ e.user = p.owner ∧
      e.remaining = [p.dudes.d0, p.dudes.d1, p.dudes.d2] ∧
      w1.pendings = mapDel w.pendings (Pubkey.pendingPda e.boxAsset) ∧
      w1.config = w.config := by
  unfold finalizeOpenBox at h
  cases hp : mapGet w.pendings (Pubkey.pendingPda e.boxAsset) with
  | none => rw [hp] at h; exact Except.noConfusion h
  | some p =>
    rw [hp] at h
    have hc : finalizeChecked w a e p = .ok w1 := h
    unfold finalizeChecked at hc
    refine ⟨p, rfl, ?_⟩
    by_cases c1 : e.cosigner = w.config.admin
    case neg => rw [if_pos c1] at hc; exact Except.noConfusion hc
    rw [if_neg (not_not_intro c1)] at hc
    by_cases c2 : e.cosigner = w.config.treasury
    case neg => rw [if_pos c2] at hc; exact Except.noConfusion hc
    rw [if_neg (not_not_intro c2)] at hc
    by_cases c3 : e.mplCoreProgramOk = true
    case neg => rw [if_pos c3] at hc; exact Except.noConfusion hc
    rw [if_neg (not_not_intro c3)] at hc
    by_cases c4 : e.logWrapperOk = true
    case neg => rw [if_pos c4] at hc; exact Except.noConfusion hc
    rw [if_neg (not_not_intro c4)] at hc
    by_cases c5 : 1 ≤ a.d0 ∧ a.d0 ≤ MAX_DUDE_ID
    case neg => rw [if_pos c5] at hc; exact Except.noConfusion hc
    rw [if_neg (not_not_intro c5)] at hc
    by_cases c6 : 1 ≤ a.d1 ∧ a.d1 ≤ MAX_DUDE_ID
    case neg => rw [if_pos c6] at hc; exact Except.noConfusion hc
    rw [if_neg (not_not_intro c6)] at hc
    by_cases c7 : 1 ≤ a.d2 ∧ a.d2 ≤ MAX_DUDE_ID
    case neg => rw [if_pos c7] at hc; exact Except.noConfusion hc
    rw [if_neg (not_not_intro c7)] at hc
    by_cases c8 : a.d0 ≠ a.d1 ∧ a.d0 ≠ a.d2 ∧ a.d1 ≠ a.d2
    case neg => rw [if_pos c8] at hc; exact Except.noConfusion hc
    rw [if_neg (not_not_intro c8)] at hc
    by_cases c9 : p.boxAsset = e.boxAsset
    case neg => rw [if_pos c9] at hc; exact Except.noConfusion hc
    rw [if_neg (not_not_intro c9)] at hc
    by_cases c10 : e.user = p.owner
    case neg => rw [if_pos c10] at hc; exact Except.noConfusion hc
    rw [if_neg (not_not_intro c10)] at hc
    refine ⟨c1, c2, c9, c10, ?_⟩
    cases hrem : e.remaining with
    | nil => rw [hrem] at hc; exact Except.noConfusion hc
    | cons r0 t0 =>
      cases t0 with
      | nil => rw [hrem] at hc; exact Except.noConfusion hc
      | cons r1 t1 =>
        cases t1 with
        | nil => rw [hrem] at hc; exact Except.noConfusion hc
        | cons r2 t2 =>
          cases t2 with
          | cons r3 t3 => rw [hrem] at hc; exact Except.noConfusion hc
          | nil =>
            rw [hrem] at hc
            have hi : finalizeItems w a e p r0 r1 r2 = .ok w1 := hc
            obtain ⟨rfl, rfl, rfl, hpend, hcfg⟩ := finalizeItems_ok_inv hi
            exact ⟨rfl, hpend, hcfg⟩

/-- **C3**: `finalize_open_box` fails with `InvalidPendingRecord` unless the
pending record's stored `box_asset` equals the presented box and the
declared user equals the stored owner, and with `InvalidRemainingAccounts`
unless the three supplied remaining accounts equal, in order, the three
placeholder addresses persisted at `start_open_box` time; the pending record
is single-use — a successful finalize closes it, so a second finalize for
the same box fails deterministically (the account lookup finds nothing). -/
theorem finalize_pending_binding_and_single_use (w : World) (a : FinalizeArgs)
    (e : FinalizeEnv) (p : PendingOpenBox)
    (hp : mapGet w.pendings (Pubkey.pendingPda e.boxAsset) = some p)
    (hc1 : e.cosigner = w.config.admin) (hc2 : e.cosigner = w.config.treasury)
    (hm : e.mplCoreProgramOk = true) (hl : e.logWrapperOk = true)
    (hr0 : 1 ≤ a.d0 ∧ a.d0 ≤ MAX_DUDE_ID)
    (hr1 : 1 ≤ a.d1 ∧ a.d1 ≤ MAX_DUDE_ID)
    (hr2 : 1 ≤ a.d2 ∧ a.d2 ≤ MAX_DUDE_ID)
    (hdist : a.d0 ≠ a.d1 ∧ a.d0 ≠ a.d2 ∧ a.d1 ≠ a.d2) :
    (¬ (p.boxAsset = e.boxAsset) →
      finalizeOpenBox w a e = .error .InvalidPendingRecord) ∧
    (p.boxAsset = e.boxAsset → ¬ (e.user = p.owner) →
      finalizeOpenBox w a e = .error .InvalidPendingRecord) ∧
    (p.boxAsset = e.boxAsset → e.user = p.owner →
      e.remaining ≠ [p.dudes.d0, p.dudes.d1, p.dudes.d2] →
      finalizeOpenBox w a e = .error .InvalidRemainingAccounts) ∧
    ((finalizeOpenBox w a e).isOk = true →
      mapGet (applyFinalize w a e).pendings (Pubkey.pendingPda e.boxAsset) =
        none ∧
      finalizeOpenBox (applyFinalize w a e) a e =
        .error .AccountNotInitialized) := by
  have heq : finalizeOpenBox w a e = finalizeChecked w a e p := by
    unfold finalizeOpenBox
    rw [hp]
  have hred : ∀ x : Except Err World,
      ((if ¬ (p.boxAsset = e.boxAsset) then
          (.error .InvalidPendingRecord : Except Err World)
        else if ¬ (e.user = p.owner) then .error .InvalidPendingRecord
        else
          match e.remaining with
          | [r0, r1, r2] => finalizeItems w a e p r0 r1 r2
          | _ => .error .InvalidRemainingAccounts) = x) →
      finalizeOpenBox w a e = x := by
    intro x hx
    rw [heq]
    unfold finalizeChecked
    rw [if_neg (not_not_intro hc1), if_neg (not_not_intro hc2),
      if_neg (not_not_intro hm), if_neg (not_not_intro hl),
      if_neg (not_not_intro hr0), if_neg (not_not_intro hr1),
      if_neg (not_not_intro hr2), if_neg (not_not_intro hdist)]
    exact hx
  refine ⟨?_, ?_, ?_, ?_⟩
  · intro hbox
    exact hred _ (by rw [if_pos hbox])
  · intro hbox huser
    exact hred _ (by rw [if_neg (not_not_intro hbox), if_pos huser])
  · intro hbox huser hrem
    refine hred _ ?_
    rw [if_neg (not_not_intro hbox), if_neg (not_not_intro huser)]
    cases hr : e.remaining with
    | nil => rfl
    | cons r0 t0 =>
      cases t0 with
      | nil => rfl
      | cons r1 t1 =>
        cases t1 with
        | nil => rfl
        | cons r2 t2 =>
          cases t2 with
          | cons r3 t3 => rfl
          | nil =>
            have hne : ¬ (r0 = p.dudes.d0 ∧ r1 = p.dudes.d1 ∧
                r2 = p.dudes.d2) := by
              rintro ⟨rfl, rfl, rfl⟩
              exact hrem hr
            show finalizeItems w a e p r0 r1 r2 = _
            unfold finalizeItems
            rw [if_pos hne]
  · intro hok
    cases hf : finalizeOpenBox w a e with
    | error er => rw [hf] at hok; simp [Except.isOk, Except.toBool] at hok
    | ok w1 =>
      obtain ⟨p2, hp2, -, -, -, -, -, hpend, -⟩ := finalize_ok_inv hf
      have happ : applyFinalize w a e = w1 := by simp [applyFinalize, hf]
      have hnone : mapGet w1.pendings (Pubkey.pendingPda e.boxAsset) =
          none := by
        rw [hpend]; exact mapGet_del_same _ _
      refine ⟨by rw [happ]; exact hnone, ?_⟩
      rw [happ]
      unfold finalizeOpenBox
      rw [hnone]

/-- The vault-custodied box asset of the open-box witnesses. -/
def boxAssetData : AssetData :=
  { owner := .raw 0, updateAuthorityKind := 2, updateAuthority := .raw 1,
    name := "Box 5", uri := "https://x/boxes/5.json" }

/-- The pending-record PDA of the witness box. -/
def pendingKeyW : Pubkey := Pubkey.pendingPda (.raw 2)

/-- The concrete world of the finalize witnesses: a vault-owned box, three
placeholder dudes, and the pending record persisted by `start_open_box`. -/
def wOpen : World :=
  { config := cfgFresh
    assets := [(.raw 2, boxAssetData),
      (Pubkey.pendingDudePda pendingKeyW 0, placeholderAsset cfgFresh),
      (Pubkey.pendingDudePda pendingKeyW 1, placeholderAsset cfgFresh),
      (Pubkey.pendingDudePda pendingKeyW 2, placeholderAsset cfgFresh)]
    deliveries := []
    pendings := [(pendingKeyW,
      { owner := .raw 3, boxAsset := .raw 2,
        dudes := { d0 := Pubkey.pendingDudePda pendingKeyW 0,
                   d1 := Pubkey.pendingDudePda pendingKeyW 1,
                   d2 := Pubkey.pendingDudePda pendingKeyW 2 },
        createdSlot := 0, bump := 0 })]
    feesPaidToTreasury := 0 }

/-- The revealed dude ids of the finalize witnesses. -/
def aOpen : FinalizeArgs := { d0 := 1, d1 := 2, d2 := 3 }

/-- The accounts of the witness `finalize_open_box` call. -/
def eOpen : FinalizeEnv :=
  { cosigner := .raw 0, boxAsset := .raw 2, user := .raw 3,
    remaining := [Pubkey.pendingDudePda pendingKeyW 0,
      Pubkey.pendingDudePda pendingKeyW 1, Pubkey.pendingDudePda pendingKeyW 2],
    mplCoreProgramOk := true, logWrapperOk := true }

/-- The stored pending record of `wOpen`. -/
def pOpen : PendingOpenBox :=
  { owner := .raw 3, boxAsset := .raw 2,
    dudes := { d0 := Pubkey.pendingDudePda pendingKeyW 0,
               d1 := Pubkey.pendingDudePda pendingKeyW 1,
               d2 := Pubkey.pendingDudePda pendingKeyW 2 },
    createdSlot := 0, bump := 0 }

/-- Witness for C3 at the concrete open-box world: a wrong user and a
permuted remaining-accounts list are rejected, while the genuine finalize
goes through, closes the pending record, and a second identical call fails
with the closed-account error. -/
theorem finalize_pending_binding_and_single_use_witness :
    finalizeOpenBox wOpen aOpen { eOpen with user := .raw 9 } =
      .error .InvalidPendingRecord ∧
    finalizeOpenBox wOpen aOpen { eOpen with
        remaining := [Pubkey.pendingDudePda pendingKeyW 1,
          Pubkey.pendingDudePda pendingKeyW 0,
          Pubkey.pendingDudePda pendingKeyW 2] } =
      .error .InvalidRemainingAccounts ∧
    mapGet (applyFinalize wOpen aOpen eOpen).pendings
      (Pubkey.pendingPda eOpen.boxAsset) = none ∧
    finalizeOpenBox (applyFinalize wOpen aOpen eOpen) aOpen eOpen =
      .error .AccountNotInitialized := by
  refine ⟨?_, ?_, ?_, ?_⟩
  · exact (finalize_pending_binding_and_single_use wOpen aOpen
      { eOpen with user := .raw 9 } pOpen (by decide) rfl rfl rfl rfl
      (by decide) (by decide) (by decide) (by decide)).2.1 (by decide)
      (by decide)
  · exact (finalize_pending_binding_and_single_use wOpen aOpen
      { eOpen with remaining := [Pubkey.pendingDudePda pendingKeyW 1,
          Pubkey.pendingDudePda pendingKeyW 0,
          Pubkey.pendingDudePda pendingKeyW 2] } pOpen (by decide) rfl rfl
      rfl rfl (by decide) (by decide) (by decide) (by decide)).2.2.1
      (by decide) (by decide) (by decide)
  · exact ((finalize_pending_binding_and_single_use wOpen aOpen eOpen pOpen
      (by decide) rfl rfl rfl rfl (by decide) (by decide) (by decide)
      (by decide)).2.2.2 (by decide)).1
  · exact ((finalize_pending_binding_and_single_use wOpen aOpen eOpen pOpen
      (by decide) rfl rfl rfl rfl (by decide) (by decide) (by decide)
      (by decide)).2.2.2 (by decide)).2

/-- **C7**: `finalize_open_box` rejects any dude-id triple with an id
outside `1..=999` (`InvalidDudeId`) or with two equal ids
(`DuplicateDudeId`), and in that case the whole call rolls back — the box is
not burned and no placeholder is updated or transferred, because the
validation precedes every CPI. -/
theorem finalize_validates_dude_ids (w : World) (a : FinalizeArgs)
    (e : FinalizeEnv) (p : PendingOpenBox)
    (hp : mapGet w.pendings (Pubkey.pendingPda e.boxAsset) = some p)
    (hc1 : e.cosigner = w.config.admin) (hc2 : e.cosigner = w.config.treasury)
    (hm : e.mplCoreProgramOk = true) (hl : e.logWrapperOk = true) :
    ((¬ (1 ≤ a.d0 ∧ a.d0 ≤ MAX_DUDE_ID) ∨ ¬ (1 ≤ a.d1 ∧ a.d1 ≤ MAX_DUDE_ID) ∨
        ¬ (1 ≤ a.d2 ∧ a.d2 ≤ MAX_DUDE_ID)) →
      finalizeOpenBox w a e = .error .InvalidDudeId ∧
      applyFinalize w a e = w) ∧
    ((1 ≤ a.d0 ∧ a.d0 ≤ MAX_DUDE_ID) → (1 ≤ a.d1 ∧ a.d1 ≤ MAX_DUDE_ID) →
      (1 ≤ a.d2 ∧ a.d2 ≤ MAX_DUDE_ID) →
      (a.d0 = a.d1 ∨ a.d0 = a.d2 ∨ a.d1 = a.d2) →
      finalizeOpenBox w a e = .error .DuplicateDudeId ∧
      applyFinalize w a e = w) := by
  have heq : finalizeOpenBox w a e = finalizeChecked w a e p := by
    unfold finalizeOpenBox
    rw [hp]
  have hpre : ∀ x : Except Err World,
      ((if ¬ (1 ≤ a.d0 ∧ a.d0 ≤ MAX_DUDE_ID) then
          (.error .InvalidDudeId : Except Err World)
        else if ¬ (1 ≤ a.d1 ∧ a.d1 ≤ MAX_DUDE_ID) then .error .InvalidDudeId
        else if ¬ (1 ≤ a.d2 ∧ a.d2 ≤ MAX_DUDE_ID) then .error .InvalidDudeId
        else if ¬ (a.d0 ≠ a.d1 ∧ a.d0 ≠ a.d2 ∧ a.d1 ≠ a.d2) then
          .error .DuplicateDudeId
        else if ¬ (p.boxAsset = e.boxAsset) then .error .InvalidPendingRecord
        else if ¬ (e.user = p.owner) then .error .InvalidPendingRecord
        else
          match e.remaining with
          | [r0, r1, r2] => finalizeItems w a e p r0 r1 r2
          | _ => .error .InvalidRemainingAccounts) = x) →
      finalizeOpenBox w a e = x := by
    intro x hx
    rw [heq]
    unfold finalizeChecked
    rw [if_neg (not_not_intro hc1), if_neg (not_not_intro hc2),
      if_neg (not_not_intro hm), if_neg (not_not_intro hl)]
    exact hx
  constructor
  · intro hbad
    have herr : finalizeOpenBox w a e = .error .InvalidDudeId := by
      refine hpre _ ?_
      by_cases hb0 : 1 ≤ a.d0 ∧ a.d0 ≤ MAX_DUDE_ID
      · rw [if_neg (not_not_intro hb0)]
        by_cases hb1 : 1 ≤ a.d1 ∧ a.d1 ≤ MAX_DUDE_ID
        · rw [if_neg (not_not_intro hb1)]
          have hb2 : ¬ (1 ≤ a.d2 ∧ a.d2 ≤ MAX_DUDE_ID) := by tauto
          rw [if_pos hb2]
        · rw [if_pos hb1]
      · rw [if_pos hb0]
    exact ⟨herr, by simp [applyFinalize, herr]⟩
  · intro hg0 hg1 hg2 hdup
    have herr : finalizeOpenBox w a e = .error .DuplicateDudeId := by
      refine hpre _ ?_
      rw [if_neg (not_not_intro hg0), if_neg (not_not_intro hg1),
        if_neg (not_not_intro hg2), if_pos (by tauto)]
    exact ⟨herr, by simp [applyFinalize, herr]⟩

/-- Witness for C7 at the concrete open-box world: the triple `(0, 1, 2)`
is rejected as out of range and `(1, 1, 2)` as duplicated, both leaving the
world unchanged. -/
theorem finalize_validates_dude_ids_witness :
    (finalizeOpenBox wOpen { d0 := 0, d1 := 1, d2 := 2 } eOpen =
      .error .InvalidDudeId ∧
     applyFinalize wOpen { d0 := 0, d1 := 1, d2 := 2 } eOpen = wOpen) ∧
    (finalizeOpenBox wOpen { d0 := 1, d1 := 1, d2 := 2 } eOpen =
      .error .DuplicateDudeId ∧
     applyFinalize wOpen { d0 := 1, d1 := 1, d2 := 2 } eOpen = wOpen) :=
  ⟨(finalize_validates_dude_ids wOpen { d0 := 0, d1 := 1, d2 := 2 } eOpen
      pOpen (by decide) rfl rfl rfl rfl).1 (Or.inl (by decide)),
   (finalize_validates_dude_ids wOpen { d0 := 1, d1 := 1, d2 := 2 } eOpen
      pOpen (by decide) rfl rfl rfl rfl).2 (by decide) (by decide)
      (by decide) (Or.inl rfl)⟩

/-- **C10**: `finalize_open_box` and `mint_receipts` each fail with
`InvalidCosigner` unless the cosigner equals both `config.admin` and
`config.treasury`; consequently, in a deployment where admin and treasury
are distinct keys, no reveal can ever be finalized and no receipt can ever
be minted. -/
theorem cosigner_requires_admin_and_treasury (w : World) (a : FinalizeArgs)
    (e : FinalizeEnv) (p : PendingOpenBox) (cfg : BoxMinterConfig)
    (ra : MintReceiptsArgs) (re : MintReceiptsEnv)
    (hp : mapGet w.pendings (Pubkey.pendingPda e.boxAsset) = some p) :
    (¬ (e.cosigner = w.config.admin ∧ e.cosigner = w.config.treasury) →
      finalizeOpenBox w a e = .error .InvalidCosigner) ∧
    (¬ (re.cosigner = cfg.admin ∧ re.cosigner = cfg.treasury) →
      mintReceipts cfg ra re = .error .InvalidCosigner) ∧
    (w.config.admin ≠ w.config.treasury →
      ∀ w1, finalizeOpenBox w a e ≠ .ok w1) ∧
    (cfg.admin ≠ cfg.treasury → ∀ out, mintReceipts cfg ra re ≠ .ok out) := by
  have heq : finalizeOpenBox w a e = finalizeChecked w a e p := by
    unfold finalizeOpenBox
    rw [hp]
  have hfin : ¬ (e.cosigner = w.config.admin ∧
      e.cosigner = w.config.treasury) →
      finalizeOpenBox w a e = .error .InvalidCosigner := by
    intro hno
    rw [heq]
    unfold finalizeChecked
    by_cases hadmin : e.cosigner = w.config.admin
    · rw [if_neg (not_not_intro hadmin)]
      have : ¬ (e.cosigner = w.config.treasury) := fun ht => hno ⟨hadmin, ht⟩
      rw [if_pos this]
    · rw [if_pos hadmin]
  have hrec : ¬ (re.cosigner = cfg.admin ∧ re.cosigner = cfg.treasury) →
      mintReceipts cfg ra re = .error .InvalidCosigner := by
    intro hno
    unfold mintReceipts
    by_cases hadmin : re.cosigner = cfg.admin
    · rw [if_neg (not_not_intro hadmin)]
      have : ¬ (re.cosigner = cfg.treasury) := fun ht => hno ⟨hadmin, ht⟩
      rw [if_pos this]
    · rw [if_pos hadmin]
  refine ⟨hfin, hrec, ?_, ?_⟩
  · intro hne w1 hok
    obtain ⟨-, -, hc1, hc2, -⟩ := finalize_ok_inv hok
    exact hne (hc1 ▸ hc2)
  · intro hne out hok
    have : mintReceipts cfg ra re = .error .InvalidCosigner := by
      refine hrec fun hb => hne ?_
      rw [← hb.1, ← hb.2]
    rw [this] at hok
    exact Except.noConfusion hok

/-- The configuration of the C10 witness, with distinct admin and treasury
keys. -/
def cfgSplitRoles : BoxMinterConfig := { cfgFresh with treasury := .raw 8 }

/-- The C10 witness world: `cfgSplitRoles` plus the pending open of `wOpen`. -/
def wSplitRoles : World := { wOpen with config := cfgSplitRoles }

/-- Witness for C10: with admin distinct from the treasury, an
admin-cosigned finalize fails with `InvalidCosigner`, receipts fail with
`InvalidCosigner`, and neither call can ever return success. -/
theorem cosigner_requires_admin_and_treasury_witness :
    finalizeOpenBox wSplitRoles aOpen eOpen = .error .InvalidCosigner ∧
    mintReceipts cfgSplitRoles { boxIds := [1], dudeIds := [] }
      { cosigner := .raw 0, bubblegumProgramOk := true, logWrapperOk := true,
        compressionProgramOk := true, mplCoreProgramOk := true,
        cpiSignerOk := true, merkleTreeOwnerOk := true, treeConfigOk := true,
        mintOk := true } = .error .InvalidCosigner ∧
    finalizeOpenBox wSplitRoles aOpen eOpen ≠ .ok wSplitRoles := by
  have t := cosigner_requires_admin_and_treasury wSplitRoles aOpen eOpen
    pOpen cfgSplitRoles { boxIds := [1], dudeIds := [] }
    { cosigner := .raw 0, bubblegumProgramOk := true, logWrapperOk := true,
      compressionProgramOk := true, mplCoreProgramOk := true,
      cpiSignerOk := true, merkleTreeOwnerOk := true, treeConfigOk := true,
      mintOk := true } (by decide)
  exact ⟨t.1 (by decide), t.2.1 (by decide), t.2.2.1 (by decide) wSplitRoles⟩

/-- `strContains` is monotone under pattern containment. -/
theorem strContains_sub {s : String} (pat1 pat2 : String)
    (hsub : pat2.data <:+: pat1.data) (h : strContains s pat1 = true) :
    strContains s pat2 = true := by
  simp only [strContains, decide_eq_true_eq] at *
  exact hsub.trans h

/-- **C9**: the figures and receipts URI bases are derived from `uri_base`
by substring replacement of a `boxes` segment, and all three derivations
fail loudly — `InvalidFigureUriBase` respectively `InvalidReceiptUriBase` —
exactly when `uri_base` ends in `".json"` or contains no `boxes` token;
otherwise they succeed. -/
theorem uri_base_derivation_fails_loudly (s : String) :
    (strEndsWith s ".json" = true ∨ strContains s "boxes" = false →
      deriveFiguresUriBase s = .error .InvalidFigureUriBase ∧
      deriveReceiptsBoxesUriBase s = .error .InvalidReceiptUriBase ∧
      deriveReceiptsFiguresUriBase s = .error .InvalidReceiptUriBase) ∧
    (strEndsWith s ".json" = false → strContains s "boxes" = true →
      (deriveFiguresUriBase s).isOk = true ∧
      (deriveReceiptsBoxesUriBase s).isOk = true ∧
      (deriveReceiptsFiguresUriBase s).isOk = true) := by
  constructor
  · rintro (hj | hb)
    · exact ⟨by simp [deriveFiguresUriBase, hj],
        by simp [deriveReceiptsBoxesUriBase, hj],
        by simp [deriveReceiptsFiguresUriBase, hj]⟩
    · have h1 : strContains s "/json/boxes/" = false := by
        cases hc : strContains s "/json/boxes/" with
        | false => rfl
        | true => rw [strContains_sub _ "boxes" (by decide) hc] at hb; cases hb
      have h2 : strContains s "/boxes/" = false := by
        cases hc : strContains s "/boxes/" with
        | false => rfl
        | true => rw [strContains_sub _ "boxes" (by decide) hc] at hb; cases hb
      by_cases hj : strEndsWith s ".json" = true
      · exact ⟨by simp [deriveFiguresUriBase, hj],
          by simp [deriveReceiptsBoxesUriBase, hj],
          by simp [deriveReceiptsFiguresUriBase, hj]⟩
      · exact ⟨by simp [deriveFiguresUriBase, hj, h1, h2, hb],
          by simp [deriveReceiptsBoxesUriBase, hj, h1, h2, hb],
          by simp [deriveReceiptsFiguresUriBase, hj, h1, h2, hb]⟩
  · intro hj hb
    by_cases h1 : strContains s "/json/boxes/" = true
    · exact ⟨by simp [deriveFiguresUriBase, hj, h1, Except.isOk, Except.toBool],
        by simp [deriveReceiptsBoxesUriBase, hj, h1, Except.isOk, Except.toBool],
        by simp [deriveReceiptsFiguresUriBase, hj, h1, Except.isOk, Except.toBool]⟩
    · by_cases h2 : strContains s "/boxes/" = true
      · exact ⟨by simp [deriveFiguresUriBase, hj, h1, h2, Except.isOk, Except.toBool],
          by simp [deriveReceiptsBoxesUriBase, hj, h1, h2, Except.isOk, Except.toBool],
          by simp [deriveReceiptsFiguresUriBase, hj, h1, h2, Except.isOk, Except.toBool]⟩
      · exact ⟨by simp [deriveFiguresUriBase, hj, h1, h2, hb, Except.isOk, Except.toBool],
          by simp [deriveReceiptsBoxesUriBase, hj, h1, h2, hb, Except.isOk, Except.toBool],
          by simp [deriveReceiptsFiguresUriBase, hj, h1, h2, hb, Except.isOk, Except.toBool]⟩

/-- **C5**: `start_open_box` succeeds only if the transfer-requirement check
passes, and that check passes precisely when the very next top-level
instruction of the transaction is an MPL-Core `TransferV1` (discriminator 14,
`compression_proof = None`) whose accounts 0–4 are exactly the box asset, the
configured collection, the payer as signer, the payer again as signer, and
the configured treasury as new owner; any failure of the check is
`MissingTransferInstruction` or `InvalidTransferInstruction`. -/
theorem start_open_box_requires_explicit_transfer (w : World)
    (se : StartOpenBoxEnv) (w1 : World) (ixs : List SysIx) (ci off : Nat)
    (asset coll owner newOwner : Pubkey) :
    (startOpenBox w se = .ok w1 →
      requireNextIxIsMplCoreTransfer se.ixs se.currentIndex 0 se.boxAsset
        w.config.coreCollection se.payer w.config.treasury = .ok ()) ∧
    (requireNextIxIsMplCoreTransfer ixs ci off asset coll owner newOwner =
        .ok () ↔
      ∃ ix, ixs.get? (ci + 1 + off) = some ix ∧
        ix.programId = Pubkey.mplCore ∧
        ix.data.get? 0 = some 14 ∧ ix.data.get? 1 = some 0 ∧
        ∃ a0 a1 a2 a3 a4,
          ix.accounts.get? 0 = some a0 ∧ a0.pubkey = asset ∧
          ix.accounts.get? 1 = some a1 ∧ a1.pubkey = coll ∧
          ix.accounts.get? 2 = some a2 ∧ a2.pubkey = owner ∧
            a2.isSigner = true ∧
          ix.accounts.get? 3 = some a3 ∧ a3.pubkey = owner ∧
            a3.isSigner = true ∧
          ix.accounts.get? 4 = some a4 ∧ a4.pubkey = newOwner) ∧
    (∀ er, requireNextIxIsMplCoreTransfer ixs ci off asset coll owner
        newOwner = .error er →
      er = .MissingTransferInstruction ∨ er = .InvalidTransferInstruction) := by
  refine ⟨?_, ?_, ?_⟩
  · intro h
    unfold startOpenBox at h
    by_cases hpend : mapGet w.pendings (Pubkey.pendingPda se.boxAsset) = none
    · rw [if_neg (not_not_intro hpend)] at h
      by_cases hm : se.mplCoreProgramOk = true
      · rw [if_neg (not_not_intro hm)] at h
        cases hv : verifyCoreAssetOwnedByUri w.assets se.boxAsset se.payer
            w.config.coreCollection w.config.uriBase none with
        | error er => rw [hv] at h; exact Except.noConfusion h
        | ok u =>
          rw [hv] at h
          cases hr : requireNextIxIsMplCoreTransfer se.ixs se.currentIndex 0
              se.boxAsset w.config.coreCollection se.payer
              w.config.treasury with
          | error er => rw [hr] at h; exact Except.noConfusion h
          | ok u2 => rfl
      · rw [if_pos hm] at h; exact Except.noConfusion h
    · rw [if_pos hpend] at h; exact Except.noConfusion h
  · constructor
    · intro h
      unfold requireNextIxIsMplCoreTransfer at h
      cases hix : ixs.get? (ci + 1 + off) with
      | none => rw [hix] at h; exact Except.noConfusion h
      | some ix =>
        rw [hix] at h
        refine ⟨ix, rfl, ?_⟩
        repeat' split at h
        all_goals try exact Except.noConfusion h
        simp only [not_not] at *
        aesop
    · rintro ⟨ix, hix, hp, hd0, hd1, a0, a1, a2, a3, a4, ha0, hpa0, ha1, hpa1,
        ha2, hpa2, hsa2, ha3, hpa3, hsa3, ha4, hpa4⟩
      have hlen : ¬ ix.data.length < 2 := by
        obtain ⟨hlt, -⟩ := List.get?_eq_some.mp hd1
        omega
      unfold requireNextIxIsMplCoreTransfer
      simp only [List.get?_eq_getElem?] at hix hd0 hd1 ha0 ha1 ha2 ha3 ha4
      simp [hix, hp, hd0, hd1, hlen, ha0, ha1, ha2, ha3, ha4, hpa0, hpa1,
        hpa2, hsa2, hpa3, hsa3, hpa4]
  · intro er h
    unfold requireNextIxIsMplCoreTransfer at h
    repeat' split at h
    all_goals try (injection h with h1; exact Or.inl h1.symm)
    all_goals try (injection h with h1; exact Or.inr h1.symm)
    all_goals simp_all

/-- Witness for C5 at a concrete transaction: an instruction list whose next
instruction is a well-formed `TransferV1` passes the check, and dropping the
signer flag makes it fail with `InvalidTransferInstruction`, while an empty
tail fails with `MissingTransferInstruction`. -/
theorem start_open_box_requires_explicit_transfer_witness :
    requireNextIxIsMplCoreTransfer
      [⟨.raw 9, [], []⟩,
       ⟨.mplCore,
        [⟨.raw 2, false, true⟩, ⟨.raw 1, false, false⟩, ⟨.raw 5, true, false⟩,
         ⟨.raw 5, true, false⟩, ⟨.raw 0, false, false⟩],
        [14, 0]⟩] 0 0 (.raw 2) (.raw 1) (.raw 5) (.raw 0) = .ok () ∧
    requireNextIxIsMplCoreTransfer
      [⟨.raw 9, [], []⟩,
       ⟨.mplCore,
        [⟨.raw 2, false, true⟩, ⟨.raw 1, false, false⟩, ⟨.raw 5, false, false⟩,
         ⟨.raw 5, true, false⟩, ⟨.raw 0, false, false⟩],
        [14, 0]⟩] 0 0 (.raw 2) (.raw 1) (.raw 5) (.raw 0) =
      .error .InvalidTransferInstruction ∧
    (.InvalidTransferInstruction = Err.MissingTransferInstruction ∨
      .InvalidTransferInstruction = Err.InvalidTransferInstruction) ∧
    requireNextIxIsMplCoreTransfer [⟨.raw 9, [], []⟩] 0 0 (.raw 2) (.raw 1)
      (.raw 5) (.raw 0) = .error .MissingTransferInstruction := by
  refine ⟨?_, by decide, ?_, by decide⟩
  · exact (start_open_box_requires_explicit_transfer ⟨cfgFresh, [], [], [], 0⟩
      ⟨.raw 5, .raw 2, [], 0, [], true, 0, 0⟩ ⟨cfgFresh, [], [], [], 0⟩ _ 0 0
      (.raw 2) (.raw 1) (.raw 5) (.raw 0)).2.1.mpr
      ⟨_, rfl, rfl, rfl, rfl, _, _, _, _, _, rfl, rfl, rfl, rfl, rfl, rfl,
        rfl, rfl, rfl, rfl, rfl, rfl⟩
  · exact (start_open_box_requires_explicit_transfer ⟨cfgFresh, [], [], [], 0⟩
      ⟨.raw 5, .raw 2, [], 0, [], true, 0, 0⟩ ⟨cfgFresh, [], [], [], 0⟩
      [⟨.raw 9, [], []⟩,
       ⟨.mplCore,
        [⟨.raw 2, false, true⟩, ⟨.raw 1, false, false⟩, ⟨.raw 5, false, false⟩,
         ⟨.raw 5, true, false⟩, ⟨.raw 0, false, false⟩],
        [14, 0]⟩] 0 0 (.raw 2) (.raw 1) (.raw 5) (.raw 0)).2.2 _ (by decide)

/-- Witness for C9 at concrete inputs: a base with a `/boxes/` segment
succeeds, a base without any `boxes` token and a `".json"` base fail. -/
theorem uri_base_derivation_fails_loudly_witness :
    (deriveFiguresUriBase "https://x/boxes/").isOk = true ∧
    deriveFiguresUriBase "https://x/items/" = .error .InvalidFigureUriBase ∧
    deriveReceiptsBoxesUriBase "https://x/shared.json" =
      .error .InvalidReceiptUriBase :=
  ⟨((uri_base_derivation_fails_loudly "https://x/boxes/").2 (by decide)
      (by decide)).1,
   ((uri_base_derivation_fails_loudly "https://x/items/").1
      (Or.inr (by decide))).1,
   ((uri_base_derivation_fails_loudly "https://x/shared.json").1
      (Or.inl (by decide))).2.1⟩

end BoxMinter
